import Mathlib

/-!
Verification development for the Iron Fish `PeerManager`
(`ironfish/src/network/peers/peerManager.ts`).

The data model and the operations below are a shallow embedding of the
TypeScript source.  Pieces of the repository that the manager consumes but
whose sources are not available here (the identity utilities, the `Peer`
and `Connection` classes, the retry policy, URL/version parsing and the
crypto box) are modelled from the specification; each such definition
carries a doc comment starting with `Modelled from the spec:`.
-/

namespace IronfishPM

/-- Identities are 32-byte values rendered as URL-safe base64 strings;
equality is bytewise and the total order is lexicographic (spec section 3). -/
abbrev Identity := String

/-- Lexicographic strict order on character lists, comparing code points. -/
def charListLt : List Char → List Char → Bool
  | [], [] => false
  | [], _ :: _ => true
  | _ :: _, [] => false
  | a :: as, b :: bs =>
    if a.toNat < b.toNat then true
    else if b.toNat < a.toNat then false
    else charListLt as bs

/-- The strict lexicographic order `a < b` on rendered identities
(spec section 3: a total order, lexicographic on the rendered form). -/
def identityLt (a b : Identity) : Bool := charListLt a.data b.data

/-- Modelled from the spec: the identity utilities (`canInitiateWebRTC` in
`network/identity.ts` is not among the provided sources).  `canInitiate(a, b)`
is true iff `a < b` lexicographically, assigning a unique initiator to each
unordered pair of distinct identities (spec section 4.A). -/
def canInitiateWebRTC (a b : Identity) : Bool := identityLt a b

/-- Modelled from the spec: `canKeepDuplicateConnection(ownerOfConnectionToKeep,
otherSide)` is true iff the first identity is lexicographically smaller
(spec section 4.A, `network/identity.ts` is not among the provided sources). -/
def canKeepDuplicateConnection (a b : Identity) : Bool := identityLt a b

/-- Modelled from the spec: `isIdentity` is the syntactic check that a string
is a 32-byte value rendered as base64, which is 44 characters
(spec section 3 and 4.A; `network/identity.ts` is not among the provided
sources). -/
def isIdentity (s : String) : Bool := s.length == 44

/-- Modelled from the spec: two versions are compatible iff their
`protocolVersion` fields are equal (spec section 3).  Versions are represented
by their protocol-version number; the textual `agent`/`client` fields play no
role in compatibility (`network/version.ts` is not among the provided
sources). -/
def versionsAreCompatible (a b : Nat) : Bool := a == b

/-- JavaScript `s || null` / `s || undefined` on an optional string: the empty
string is falsy and collapses to `none`. -/
def jsStrOrNone (s : Option String) : Option String :=
  match s with
  | some t => if t = "" then none else some t
  | none => none

/-- Reasons carried by a `Disconnecting` message (spec section 6). -/
inductive DisconnectingReason
  | shuttingDown
  | congested
  | badHandshake
  | unknown
deriving DecidableEq, Repr

/-- Transport class of a connection. -/
inductive ConnectionType
  | webSocket
  | webRtc
deriving DecidableEq, Repr

/-- Direction of a connection. -/
inductive ConnectionDirection
  | inbound
  | outbound
deriving DecidableEq, Repr

/-- Per-connection state machine states (spec section 3). -/
inductive ConnectionState
  | connecting
  | waitingForIdentity
  | requestSignaling
  | signaling
  | connected (identity : Identity)
  | disconnected
deriving DecidableEq, Repr

/-- Modelled from the spec: one transport session owned by a peer
(`Connection` in `network/peers/connections` is not among the provided
sources; spec sections 4.B and 9).  `cid` stands in for the JavaScript object
identity of the connection. -/
structure ConnectionModel where
  cid : Nat
  ctype : ConnectionType
  direction : ConnectionDirection
  cstate : ConnectionState
  hostname : Option String := none
  port : Option Nat := none
deriving DecidableEq, Repr

/-- Modelled from the spec: per-(peer, transport, direction) retry state
(`ConnectionRetry` is not among the provided sources; spec sections 3
and 4.C). -/
structure ConnectionRetry where
  neverRetry : Bool := false
  failures : Nat := 0
  cooldownUntil : Nat := 0
deriving DecidableEq, Repr

/-- Modelled from the spec: `canConnect` is the derived predicate
`!neverRetry && now >= cooldownUntil` (spec section 3). -/
def ConnectionRetry.canConnect (r : ConnectionRetry) (now : Nat) : Bool :=
  !r.neverRetry && decide (r.cooldownUntil ≤ now)

/-- Modelled from the spec: on a failed connection a whitelisted peer gets
cooldown 0 and no failure increment, otherwise the failure count increments
and an exponential back-off capped at 60 s applies (spec section 4.C). -/
def ConnectionRetry.failedConnection (r : ConnectionRetry) (now : Nat)
    (isWhitelisted : Bool) : ConnectionRetry :=
  if isWhitelisted then
    { r with cooldownUntil := 0 }
  else
    { r with failures := r.failures + 1,
             cooldownUntil := now + min (1000 * 2 ^ r.failures) 60000 }

/-- Modelled from the spec: `neverRetryConnecting()` sets the sticky
`neverRetry` flag (spec sections 3 and 4.C). -/
def ConnectionRetry.neverRetryConnecting (r : ConnectionRetry) : ConnectionRetry :=
  { r with neverRetry := true }

/-- Payload of the handshake `Identify` frame (spec section 6).  The
`version` field holds the parsed protocol version (parsing lives in
`network/version.ts`, which is not among the provided sources). -/
structure IdentifyPayload where
  identity : String
  version : Nat
  port : Option Nat := none
  name : Option String := none
  isWorker : Option Bool := none
deriving DecidableEq, Repr

/-- Payload of a `Disconnecting` message (spec section 6). -/
structure DisconnectingPayload where
  sourceIdentity : Identity
  destinationIdentity : Option Identity
  reason : DisconnectingReason
  disconnectUntil : Nat
deriving DecidableEq, Repr

/-- Payload of a `SignalRequest` message (spec section 6). -/
structure SignalRequestPayload where
  sourceIdentity : Identity
  destinationIdentity : Identity
deriving DecidableEq, Repr

/-- Payload of a `Signal` message (spec section 6). -/
structure SignalPayload where
  sourceIdentity : Identity
  destinationIdentity : Identity
  nonce : String
  signal : String
deriving DecidableEq, Repr

/-- One entry of a `PeerList` payload (spec section 6). -/
structure PeerListEntry where
  identity : Identity
  name : Option String := none
  address : Option String := none
  port : Option Nat := none
deriving DecidableEq, Repr

/-- Overlay messages handled by the manager.  `other` stands for every
application-layer message (`LooseMessage`s that are none of the five
overlay-control types). -/
inductive PMessage
  | identify (p : IdentifyPayload)
  | disconnecting (p : DisconnectingPayload)
  | signalRequest (p : SignalRequestPayload)
  | signal (p : SignalPayload)
  | peerList (connectedPeers : List PeerListEntry)
  | other (msgType : String)
deriving DecidableEq, Repr

/-- Modelled from the spec: a peer record (`Peer` in `network/peers/peer.ts`
is not among the provided sources; spec sections 3 and 4.D).  `pid` stands in
for the JavaScript object identity of the record; `knownPeers` maps an
identity to the `pid` of the referenced record. -/
structure PeerModel where
  pid : Nat
  identity : Option Identity
  name : Option String := none
  address : Option String := none
  port : Option Nat := none
  version : Option Nat := none
  isWorker : Bool := false
  isWhitelisted : Bool := false
  localRequestedDisconnectReason : Option DisconnectingReason := none
  localRequestedDisconnectUntil : Option Nat := none
  peerRequestedDisconnectReason : Option DisconnectingReason := none
  peerRequestedDisconnectUntil : Option Nat := none
  wsConnection : Option ConnectionModel := none
  rtcConnection : Option ConnectionModel := none
  knownPeers : List (Identity × Nat) := []
  retryWsOut : ConnectionRetry := {}
  retryWsIn : ConnectionRetry := {}
  retryRtcOut : ConnectionRetry := {}
  retryRtcIn : ConnectionRetry := {}
deriving DecidableEq, Repr

/-- Per-peer state machine states (spec section 3). -/
inductive PeerStateType
  | disconnected
  | connecting
  | connected
deriving DecidableEq, Repr

/-- True when a connection is in the `CONNECTED` state. -/
def connIsConnected (c : ConnectionModel) : Bool :=
  match c.cstate with
  | .connected _ => true
  | _ => false

/-- Modelled from the spec: the peer state is the join of its connections'
states — `CONNECTED` when some connection is `CONNECTED`, `CONNECTING` when a
connection exists but none is `CONNECTED`, `DISCONNECTED` when both slots are
empty (spec section 3). -/
def PeerModel.stateType (p : PeerModel) : PeerStateType :=
  if p.wsConnection.any connIsConnected || p.rtcConnection.any connIsConnected then
    .connected
  else if p.wsConnection.isSome || p.rtcConnection.isSome then
    .connecting
  else
    .disconnected

/-- Retry slot lookup, mirroring `peer.getConnectionRetry(type, direction)`. -/
def PeerModel.getConnectionRetry (p : PeerModel) (t : ConnectionType)
    (d : ConnectionDirection) : ConnectionRetry :=
  match t, d with
  | .webSocket, .outbound => p.retryWsOut
  | .webSocket, .inbound => p.retryWsIn
  | .webRtc, .outbound => p.retryRtcOut
  | .webRtc, .inbound => p.retryRtcIn

/-- Applies a function to the retry slot for the given transport and
direction. -/
def PeerModel.updateRetry (p : PeerModel) (t : ConnectionType)
    (d : ConnectionDirection) (f : ConnectionRetry → ConnectionRetry) : PeerModel :=
  match t, d with
  | .webSocket, .outbound => { p with retryWsOut := f p.retryWsOut }
  | .webSocket, .inbound => { p with retryWsIn := f p.retryWsIn }
  | .webRtc, .outbound => { p with retryRtcOut := f p.retryRtcOut }
  | .webRtc, .inbound => { p with retryRtcIn := f p.retryRtcIn }

/-- Finds the connection with the given `cid` among the peer's two slots. -/
def PeerModel.findConnection (p : PeerModel) (cid : Nat) : Option ConnectionModel :=
  match p.wsConnection.filter (fun c => c.cid == cid) with
  | some c => some c
  | none => p.rtcConnection.filter (fun c => c.cid == cid)

/-- Detaches the connection with the given `cid` from the peer's slots,
mirroring `peer.removeConnection(connection)`. -/
def PeerModel.removeConnection (p : PeerModel) (cid : Nat) : PeerModel :=
  { p with
    wsConnection := p.wsConnection.filter (fun c => !(c.cid == cid)),
    rtcConnection := p.rtcConnection.filter (fun c => !(c.cid == cid)) }

/-- Association-list lookup over an identity-keyed map, mirroring
JavaScript `Map.get`. -/
def mget : List (Identity × Nat) → Identity → Option Nat
  | [], _ => none
  | e :: rest, k => if e.1 = k then some e.2 else mget rest k

/-- True when the identity-keyed map holds the key, mirroring `Map.has`. -/
def mhas (m : List (Identity × Nat)) (k : Identity) : Bool :=
  (mget m k).isSome

/-- Insert-or-replace over an identity-keyed map, keeping the position of an
existing key, mirroring JavaScript `Map.set` insertion-order semantics. -/
def mset : List (Identity × Nat) → Identity → Nat → List (Identity × Nat)
  | [], k, v => [(k, v)]
  | e :: rest, k, v => if e.1 = k then (k, v) :: rest else e :: mset rest k v

/-- Deletion over an identity-keyed map, mirroring `Map.delete`. -/
def mdel : List (Identity × Nat) → Identity → List (Identity × Nat)
  | [], _ => []
  | e :: rest, k => if e.1 = k then mdel rest k else e :: mdel rest k

/-- The whole `PeerManager` state: the flat `peers` list, the
identity-to-record map `identifiedPeers`, and counters standing in for the
allocation of fresh JavaScript object identities. -/
structure ManagerState where
  peers : List PeerModel := []
  identifiedPeers : List (Identity × Nat) := []
  nextPid : Nat := 0
  nextCid : Nat := 0
deriving DecidableEq, Repr

/-- Environment of the manager: the local peer's data, configuration and the
consumed interfaces (crypto box, JSON and URL parsing), plus the current
clock value standing in for `Date.now()` (spec sections 4.E and 6). -/
structure Config where
  localIdentity : Identity
  localVersion : Nat := 1
  localIsWorker : Bool := false
  broadcastWorkers : Bool := true
  maxPeers : Nat := 10000
  targetPeers : Nat := 50
  now : Nat := 0
  unboxMessage : String → String → Identity → Option String := fun _ _ _ => none
  parseSignalData : String → Option String := fun _ => none
  parseUrlHostname : String → Option String := fun _ => none
  parseUrlPort : String → Option Nat := fun _ => none

/-- Observable actions of the manager: frames sent, connections closed,
events emitted, connections created, signalling data fed into a WebRTC
session. -/
inductive Effect
  | sendToPeer (pid : Nat) (msg : PMessage)
  | sendOnConnection (cid : Nat) (msg : PMessage)
  | closedConnection (cid : Nat)
  | emitOnMessage (pid : Nat) (identity : Identity) (msg : PMessage)
  | emitKnownPeersChanged (pid : Nat)
  | connectedTransition (cid : Nat) (identity : Identity)
  | rtcConnectionCreated (pid : Nat) (cid : Nat) (initiator : Bool)
  | wsConnectionCreated (pid : Nat) (cid : Nat)
  | signalFed (cid : Nat) (data : String)
deriving DecidableEq, Repr

/-- Resolves a record `pid` in the flat peers list. -/
def findPeer (st : ManagerState) (pid : Nat) : Option PeerModel :=
  st.peers.find? (fun p => p.pid == pid)

/-- Applies a function to the record with the given `pid`. -/
def updatePeer (st : ManagerState) (pid : Nat) (f : PeerModel → PeerModel) :
    ManagerState :=
  { st with peers := st.peers.map (fun p => if p.pid = pid then f p else p) }

/-- True when the record `pid` exists and is in the `CONNECTED` state. -/
def peerIsConnectedAt (st : ManagerState) (pid : Nat) : Bool :=
  match findPeer st pid with
  | some p => p.stateType == .connected
  | none => false

/-- Modelled from the spec: closing a connection forces it to `DISCONNECTED`
and, because a peer in `DISCONNECTED` holds no live connection (invariant I4
and section 8), the owning peer's slot for it empties.  In the model the
closed session simply leaves every slot it occupies and the closure is
recorded as an effect. -/
def closeConnection (st : ManagerState) (cid : Nat) : ManagerState × List Effect :=
  ({ st with peers := st.peers.map (fun p => p.removeConnection cid) },
   [.closedConnection cid])

/-- Modelled from the spec: `peer.close()` closes every live connection of the
peer (spec section 4.D). -/
def peerClose (st : ManagerState) (pid : Nat) : ManagerState × List Effect :=
  match findPeer st pid with
  | none => (st, [])
  | some p =>
    let effs :=
      (match p.wsConnection with
       | some c => [Effect.closedConnection c.cid]
       | none => []) ++
      (match p.rtcConnection with
       | some c => [Effect.closedConnection c.cid]
       | none => [])
    (updatePeer st pid (fun q => { q with wsConnection := none, rtcConnection := none }),
     effs)

/-- Modelled from the spec: `peer.setWebSocketConnection(connection)` installs
the connection in the WebSocket slot, closing any previously installed
connection in that slot first (spec section 4.D). -/
def setWebSocketConnection (st : ManagerState) (pid : Nat) (c : ConnectionModel) :
    ManagerState × List Effect :=
  match findPeer st pid with
  | none => (st, [])
  | some p =>
    let closes :=
      match p.wsConnection with
      | some old => if old.cid = c.cid then [] else [Effect.closedConnection old.cid]
      | none => []
    (updatePeer st pid (fun q => { q with wsConnection := some c }), closes)

/-- Modelled from the spec: `peer.setWebRtcConnection(connection)` installs
the connection in the WebRTC slot, closing any previously installed
connection in that slot first (spec section 4.D). -/
def setWebRtcConnection (st : ManagerState) (pid : Nat) (c : ConnectionModel) :
    ManagerState × List Effect :=
  match findPeer st pid with
  | none => (st, [])
  | some p =>
    let closes :=
      match p.rtcConnection with
      | some old => if old.cid = c.cid then [] else [Effect.closedConnection old.cid]
      | none => []
    (updatePeer st pid (fun q => { q with rtcConnection := some c }), closes)

/-- Applies a function to the connection with the given `cid` wherever it
lives on the record `pid`. -/
def updateConnectionOnPeer (st : ManagerState) (pid : Nat) (cid : Nat)
    (f : ConnectionModel → ConnectionModel) : ManagerState :=
  updatePeer st pid (fun q =>
    { q with
      wsConnection := q.wsConnection.map (fun c => if c.cid = cid then f c else c),
      rtcConnection := q.rtcConnection.map (fun c => if c.cid = cid then f c else c) })

/-- `getOrCreatePeer`: returns the record registered for the identity when
one exists, otherwise creates a fresh record.  For a fresh record with a
non-null identity the source immediately runs `updateIdentifiedPeerMap`,
which on this path (no record registered for the identity) inserts the new
record into `identifiedPeers`; that insertion is inlined here. -/
def getOrCreatePeer (st : ManagerState) (identity : Option Identity) :
    ManagerState × Nat :=
  match identity with
  | some id =>
    match mget st.identifiedPeers id with
    | some pid => (st, pid)
    | none =>
      let pid := st.nextPid
      let p : PeerModel := { pid := pid, identity := some id }
      ({ st with
          peers := st.peers ++ [p],
          identifiedPeers := mset st.identifiedPeers id pid,
          nextPid := st.nextPid + 1 }, pid)
  | none =>
    let pid := st.nextPid
    let p : PeerModel := { pid := pid, identity := none }
    ({ st with peers := st.peers ++ [p], nextPid := st.nextPid + 1 }, pid)

/-- `tryDisposePeer`: removes the record from the flat list (and from
`identifiedPeers` when the map points at this very record) exactly when the
peer is `DISCONNECTED`, none of its `knownPeers` is `CONNECTED`, and the
outbound-WebSocket retry is marked never-retry; otherwise returns `false`
and changes nothing. -/
def tryDisposePeer (st : ManagerState) (pid : Nat) : ManagerState × Bool :=
  match findPeer st pid with
  | none => (st, false)
  | some p =>
    let hasAConnectedPeer := p.knownPeers.any (fun kp => peerIsConnectedAt st kp.2)
    if p.stateType == .disconnected && !hasAConnectedPeer &&
        (p.getConnectionRetry .webSocket .outbound).neverRetry then
      let identified1 :=
        match p.identity with
        | some id =>
          if mget st.identifiedPeers id == some pid then
            mdel st.identifiedPeers id
          else
            st.identifiedPeers
        | none => st.identifiedPeers
      ({ st with
          peers := st.peers.filter (fun q => !(q.pid == pid)),
          identifiedPeers := identified1 }, true)
    else
      (st, false)

/-- `disposePeers`: the periodic sweep attempts to dispose every peer.  The
source iterates the array captured at loop entry even though disposal
reassigns `this.peers`, so the fold runs over the initial snapshot. -/
def disposePeers (st : ManagerState) : ManagerState :=
  (st.peers.map (fun p => p.pid)).foldl (fun s pid => (tryDisposePeer s pid).1) st

/-- Number of peers with a connection, `getPeersWithConnection().length`. -/
def getPeersWithConnectionCount (st : ManagerState) : Nat :=
  (st.peers.filter (fun p => !(p.stateType == .disconnected))).length

/-- `shouldRejectDisconnectedPeers`: true when at or above `maxPeers`. -/
def shouldRejectDisconnectedPeers (cfg : Config) (st : ManagerState) : Bool :=
  decide (cfg.maxPeers ≤ getPeersWithConnectionCount st)

/-- The records reachable from `identifiedPeers`, in map order, mirroring
`this.identifiedPeers.values()`. -/
def identifiedPeerRecords (st : ManagerState) : List PeerModel :=
  st.identifiedPeers.filterMap (fun e => findPeer st e.2)

/-- `broadcast(message)`: sends the message to every `CONNECTED` peer of
`identifiedPeers`. -/
def broadcast (st : ManagerState) (msg : PMessage) : List Effect :=
  (identifiedPeerRecords st).filterMap (fun p =>
    if p.stateType == .connected then some (Effect.sendToPeer p.pid msg) else none)

/-- Milliseconds between `broadcastPeerList` runs, from the `setInterval`
call in `start()`. -/
def broadcastPeerListIntervalMs : Nat := 5000

/-- Milliseconds between `disposePeers` runs, from the `setInterval` call in
`start()`. -/
def disposePeersIntervalMs : Nat := 2000

/-- The `connectedPeers` payload assembled by `broadcastPeerList`: every
`CONNECTED` peer of `identifiedPeers`, skipping workers unless the local
`broadcastWorkers` option is set.  A `CONNECTED` record always carries an
identity in the source's types; a record without one contributes no entry. -/
def broadcastPeerListEntries (cfg : Config) (st : ManagerState) : List PeerListEntry :=
  (identifiedPeerRecords st).filterMap (fun p =>
    if !(p.stateType == .connected) then none
    else if p.isWorker && !cfg.broadcastWorkers then none
    else
      match p.identity with
      | some id =>
        some { identity := id, name := jsStrOrNone p.name,
               address := p.address, port := p.port }
      | none => none)

/-- `broadcastPeerList()`: assembles the connected-peer list once and
broadcasts the same `PeerList` message to every `CONNECTED` peer. -/
def broadcastPeerList (cfg : Config) (st : ManagerState) : List Effect :=
  broadcast st (.peerList (broadcastPeerListEntries cfg st))

/-- One bounded step of `addKnownPeerTo`.  The source recurses once to add
the symmetric edge; the recursive call cannot recurse again because the edge
it would re-add is present by then, so fuel 2 reproduces the source
exactly. -/
def addKnownPeerToAux : Nat → ManagerState → Nat → Nat → Bool →
    ManagerState × List Effect
  | 0, st, _, _, _ => (st, [])
  | fuel + 1, st, peerPid, addToPid, emitFlag =>
    match findPeer st peerPid with
    | none => (st, [])
    | some peer =>
      match findPeer st addToPid with
      | none => (st, [])
      | some addTo =>
        match peer.identity with
        | none => (st, [])
        | some pi =>
          match addTo.identity with
          | none => (st, [])
          | some ai =>
            if pi = ai then (st, [])
            else
              let (st1, effs1) :=
                if (mhas addTo.knownPeers pi) = false then
                  (updatePeer st addToPid
                     (fun q => { q with knownPeers := mset q.knownPeers pi peerPid }),
                   if emitFlag then [Effect.emitKnownPeersChanged addToPid] else [])
                else (st, [])
              let peerKnown :=
                match findPeer st1 peerPid with
                | some q => q.knownPeers
                | none => []
              if (mhas peerKnown ai) = false then
                let (st2, effs2) := addKnownPeerToAux fuel st1 addToPid peerPid true
                (st2, effs1 ++ effs2)
              else (st1, effs1)

/-- `addKnownPeerTo(peer, addTo, emitKnownPeersChanged)`: records `peer` in
`addTo`'s known peers (skipping when either identity is missing or they are
equal), emits `onKnownPeersChanged` on `addTo` unless suppressed, and adds
the symmetric edge. -/
def addKnownPeerTo (st : ManagerState) (peerPid addToPid : Nat)
    (emitFlag : Bool := true) : ManagerState × List Effect :=
  addKnownPeerToAux 2 st peerPid addToPid emitFlag

/-- `initWebRtcConnection(brokeringPeer, peer, initiator)`: creates a WebRTC
connection and installs it in the peer's WebRTC slot.  The connection begins
in `CONNECTING`; an initiator session is the dialling (outbound) side
(spec sections 4.B and 4.F).  The `onSignal` subscription that relays boxed
signalling payloads through the broker reacts to later transport events and
is outside the state transition modelled here. -/
def initWebRtcConnection (st : ManagerState) (_brokerPid peerPid : Nat)
    (initiator : Bool) : ManagerState × Nat × List Effect :=
  let cid := st.nextCid
  let conn : ConnectionModel :=
    { cid := cid, ctype := .webRtc,
      direction := if initiator then .outbound else .inbound,
      cstate := .connecting }
  let st1 := { st with nextCid := st.nextCid + 1 }
  let (st2, closes) := setWebRtcConnection st1 peerPid conn
  (st2, cid, Effect.rtcConnectionCreated peerPid cid initiator :: closes)

/-- `handleDisconnectingMessage`: a message not addressed to us (and with a
non-null destination) is forwarded only when its source matches the sender's
identity and the destination is a known identified peer; a message addressed
to us records the peer-requested disconnect window and closes the sender. -/
def handleDisconnectingMessage (cfg : Config) (st : ManagerState)
    (senderPid : Nat) (pl : DisconnectingPayload) : ManagerState × List Effect :=
  match findPeer st senderPid with
  | none => (st, [])
  | some sender =>
    if pl.destinationIdentity ≠ some cfg.localIdentity ∧
        pl.destinationIdentity ≠ none then
      if some pl.sourceIdentity ≠ sender.identity then (st, [])
      else
        match pl.destinationIdentity with
        | some dest =>
          match mget st.identifiedPeers dest with
          | none => (st, [])
          | some dpid => (st, [.sendToPeer dpid (.disconnecting pl)])
        | none => (st, [])
    else
      let st1 := updatePeer st senderPid (fun p =>
        { p with
          peerRequestedDisconnectReason := some pl.reason,
          peerRequestedDisconnectUntil := some pl.disconnectUntil })
      peerClose st1 senderPid

/-- The congestion test shared by the `SignalRequest` and `Signal` handlers:
at or above `maxPeers` and the message's source is not a `CONNECTED` peer. -/
def congestedReject (cfg : Config) (st : ManagerState) (source : Identity) : Bool :=
  shouldRejectDisconnectedPeers cfg st &&
    (match mget st.identifiedPeers source with
     | some spid => !(peerIsConnectedAt st spid)
     | none => true)

/-- The `Disconnecting(Congested, 1000*60*5)` reply sent to a congested
signalling source. -/
def congestedReplyMessage (cfg : Config) (source : Identity) : PMessage :=
  .disconnecting
    { sourceIdentity := cfg.localIdentity,
      destinationIdentity := some source,
      reason := .congested,
      disconnectUntil := 1000 * 60 * 5 }

/-- `handleSignalRequestMessage`: drops when the source should have initiated
directly; forwards (single hop) when not addressed to us; when addressed to
us, rejects with a congested reply at `maxPeers`, otherwise looks up or
creates the source peer, records the sender as a broker edge and, when no
WebRTC connection exists yet, opens one as initiator. -/
def handleSignalRequestMessage (cfg : Config) (st : ManagerState)
    (senderPid : Nat) (pl : SignalRequestPayload) : ManagerState × List Effect :=
  match findPeer st senderPid with
  | none => (st, [])
  | some sender =>
    if canInitiateWebRTC pl.sourceIdentity pl.destinationIdentity then (st, [])
    else if pl.destinationIdentity ≠ cfg.localIdentity then
      if some pl.sourceIdentity ≠ sender.identity then (st, [])
      else
        match mget st.identifiedPeers pl.destinationIdentity with
        | none => (st, [])
        | some dpid => (st, [.sendToPeer dpid (.signalRequest pl)])
    else if congestedReject cfg st pl.sourceIdentity then
      (st, [.sendToPeer senderPid (congestedReplyMessage cfg pl.sourceIdentity)])
    else
      let (st1, targetPid) := getOrCreatePeer st (some pl.sourceIdentity)
      let (st2, effsA) := addKnownPeerTo st1 targetPid senderPid
      match findPeer st2 targetPid with
      | none => (st2, effsA)
      | some target =>
        if !(target.stateType == .disconnected) && target.rtcConnection.isSome then
          (st2, effsA)
        else
          let (st3, _, effsB) := initWebRtcConnection st2 senderPid targetPid true
          (st3, effsA ++ effsB)

/-- The tail of `handleSignalMessage` once a WebRTC connection is at hand:
unbox the signal with the crypto interface, JSON-parse the plaintext, and
feed the result into the connection; either failure closes the connection
with a network error. -/
def applySignalData (cfg : Config) (st : ManagerState) (cid : Nat)
    (pl : SignalPayload) : ManagerState × List Effect :=
  match cfg.unboxMessage pl.signal pl.nonce pl.sourceIdentity with
  | none => closeConnection st cid
  | some plaintext =>
    match cfg.parseSignalData plaintext with
    | none => closeConnection st cid
    | some sd => (st, [.signalFed cid sd])

/-- The local-delivery tail of `handleSignalMessage`: record the broker edge,
ensure a WebRTC connection for the signalling peer — creating one as
non-initiator only when the source is the designated initiator of the pair —
and feed the unboxed, parsed signalling payload into it. -/
def ensureSignalingConnection (cfg : Config) (st1 : ManagerState)
    (senderPid spid : Nat) (pl : SignalPayload) : ManagerState × List Effect :=
  let (st2, effsA) := addKnownPeerTo st1 spid senderPid
  match findPeer st2 spid with
  | none => (st2, effsA)
  | some speer =>
    if speer.stateType == .disconnected ∨ speer.rtcConnection = none then
      match speer.identity with
      | none => (st2, effsA)
      | some sid =>
        if !(canInitiateWebRTC sid pl.destinationIdentity) then (st2, effsA)
        else
          let (st3, cid, effsB) := initWebRtcConnection st2 senderPid spid false
          let (st4, effsC) := applySignalData cfg st3 cid pl
          (st4, effsA ++ effsB ++ effsC)
    else
      match speer.rtcConnection with
      | some c =>
        let (st3, effsC) := applySignalData cfg st2 c.cid pl
        (st3, effsA ++ effsC)
      | none => (st2, effsA)

/-- `handleSignalMessage`: forwards (single hop) when not addressed to us;
when addressed to us, rejects with a congested reply at `maxPeers`,
otherwise looks up or creates the source peer and runs
`ensureSignalingConnection` on it. -/
def handleSignalMessage (cfg : Config) (st : ManagerState) (senderPid : Nat)
    (pl : SignalPayload) : ManagerState × List Effect :=
  match findPeer st senderPid with
  | none => (st, [])
  | some sender =>
    if pl.destinationIdentity ≠ cfg.localIdentity then
      if some pl.sourceIdentity ≠ sender.identity then (st, [])
      else
        match mget st.identifiedPeers pl.destinationIdentity with
        | none => (st, [])
        | some dpid => (st, [.sendToPeer dpid (.signal pl)])
    else if congestedReject cfg st pl.sourceIdentity then
      (st, [.sendToPeer senderPid (congestedReplyMessage cfg pl.sourceIdentity)])
    else
      let (st1, spid) := getOrCreatePeer st (some pl.sourceIdentity)
      ensureSignalingConnection cfg st1 senderPid spid pl

/-- InsertOrReplace over the `newPeerSet` map built by `handlePeerListMessage`,
keeping the position of an existing key, mirroring `Map.set`. -/
def upsertEntry (m : List PeerListEntry) (e : PeerListEntry) : List PeerListEntry :=
  match m with
  | [] => [e]
  | e1 :: rest =>
    if e1.identity = e.identity then e :: rest else e1 :: upsertEntry rest e

/-- Membership in the `newPeerSet` map, mirroring `Map.has`. -/
def entriesHas (m : List PeerListEntry) (k : Identity) : Bool :=
  m.any (fun e => e.identity == k)

/-- Deletion from the `newPeerSet` map, mirroring `Map.delete`. -/
def entriesDelete (m : List PeerListEntry) (k : Identity) : List PeerListEntry :=
  m.filter (fun e => !(e.identity == k))

/-- The `newPeerSet` of `handlePeerListMessage`: the payload reduced into a
map keyed by identity, with the local peer removed. -/
def buildNewPeerSet (cfg : Config) (connectedPeers : List PeerListEntry) :
    List PeerListEntry :=
  entriesDelete (connectedPeers.foldl upsertEntry []) cfg.localIdentity

/-- One iteration of the edge-removal loop of `handlePeerListMessage`: an
edge of the sender absent from `newPeerSet` is deleted on both sides and
both endpoints become disposal candidates.  A JavaScript `Map` iterator
yields only entries still present, hence the membership re-check. -/
def removeStaleStep (newPeerSet : List PeerListEntry) (senderPid : Nat)
    (peerIdentity : Identity) (acc : ManagerState × Bool)
    (entry : Identity × Nat) : ManagerState × Bool :=
  let (st, changed) := acc
  match findPeer st senderPid with
  | none => (st, changed)
  | some peer =>
    if (mhas peer.knownPeers entry.1) = false then (st, changed)
    else if entriesHas newPeerSet entry.1 then (st, changed)
    else
      let st1 := updatePeer st senderPid
        (fun q => { q with knownPeers := mdel q.knownPeers entry.1 })
      let st2 := updatePeer st1 entry.2
        (fun q => { q with knownPeers := mdel q.knownPeers peerIdentity })
      let st3 := (tryDisposePeer st2 senderPid).1
      let st4 := (tryDisposePeer st3 entry.2).1
      (st4, true)

/-- The edge-removal loop of `handlePeerListMessage`, folded over the
sender's known-peer entries captured at loop entry. -/
def removeStalePeerEdges (st : ManagerState) (senderPid : Nat)
    (peerIdentity : Identity) (newPeerSet : List PeerListEntry)
    (entries : List (Identity × Nat)) : ManagerState × Bool :=
  entries.foldl (removeStaleStep newPeerSet senderPid peerIdentity) (st, false)

/-- One iteration of the edge-addition loop of `handlePeerListMessage`: a
listed identity the sender does not know yet is looked up or created, its
advertised address, port and name are adopted, and the edge is added with
the bulk-update flag suppressing the sender's own event. -/
def addNewStep (senderPid : Nat) (acc : ManagerState × Bool × List Effect)
    (entry : PeerListEntry) : ManagerState × Bool × List Effect :=
  let (st, _changed, effs) := acc
  match findPeer st senderPid with
  | none => acc
  | some peer =>
    if mhas peer.knownPeers entry.identity then acc
    else
      let (st1, kpid) := getOrCreatePeer st (some entry.identity)
      let st2 := updatePeer st1 kpid (fun q =>
        { q with address := entry.address, port := entry.port,
                 name := jsStrOrNone entry.name })
      let (st3, effs2) := addKnownPeerTo st2 kpid senderPid false
      (st3, true, effs ++ effs2)

/-- The edge-addition loop of `handlePeerListMessage`, folded over the values
of `newPeerSet`. -/
def addNewPeerEdges (st : ManagerState) (senderPid : Nat)
    (newPeerSet : List PeerListEntry) : ManagerState × Bool × List Effect :=
  newPeerSet.foldl (addNewStep senderPid) (st, false, [])

/-- `handlePeerListMessage`: ignored unless the sender is `CONNECTED` and we
are not a worker; otherwise the sender's known-peer edges are reconciled
against the received list (removals first, then additions) and
`onKnownPeersChanged` fires once when any edge changed.  A `CONNECTED`
sender always carries an identity in the source's types. -/
def handlePeerListMessage (cfg : Config) (st : ManagerState) (senderPid : Nat)
    (connectedPeers : List PeerListEntry) : ManagerState × List Effect :=
  match findPeer st senderPid with
  | none => (st, [])
  | some peer0 =>
    if !(peer0.stateType == .connected) then (st, [])
    else if cfg.localIsWorker then (st, [])
    else
      match peer0.identity with
      | none => (st, [])
      | some peerIdentity =>
        let newPeerSet := buildNewPeerSet cfg connectedPeers
        let (st1, changed1) :=
          removeStalePeerEdges st senderPid peerIdentity newPeerSet peer0.knownPeers
        let (st2, changed2, effs2) := addNewPeerEdges st1 senderPid newPeerSet
        (st2,
         effs2 ++ (if changed1 || changed2 then
                     [Effect.emitKnownPeersChanged senderPid]
                   else []))

/-- The record update of the handshake's own-identity branch: detach the
connection, mark the retry slot for its transport and direction never-retry
and — only for an outbound WebSocket connection — clear the configured
address and port. -/
def selfIdentityUpdate (cid : Nat) (conn : ConnectionModel) (q : PeerModel) :
    PeerModel :=
  let q1 := (q.removeConnection cid).updateRetry conn.ctype conn.direction
    (fun r => r.neverRetryConnecting)
  if conn.ctype = .webSocket ∧ conn.direction = .outbound then
    { q1 with address := none, port := none }
  else q1

/-- The rejection path shared by the three handshake validations (bad
identity format, incompatible version, over-long name): record a failed
connection against the retry slot for the connection's transport and
direction, then close the peer. -/
def failHandshakeValidation (cfg : Config) (st : ManagerState) (pid : Nat)
    (conn : ConnectionModel) : ManagerState × List Effect :=
  let st1 := updatePeer st pid (fun q =>
    q.updateRetry conn.ctype conn.direction
      (fun r => r.failedConnection cfg.now q.isWhitelisted))
  peerClose st1 pid

/-- The identity-mismatch step of the handshake: when the record already has
a different identity, the connection is detached, the old record's retry for
this transport and direction is marked never-retry, a record for the claimed
identity is looked up or created, the connection migrates onto it, and — for
an outbound WebSocket with a configured address — the address migrates too.
Returns the record now holding the connection. -/
def migrateIfMismatched (st : ManagerState) (pid : Nat) (cid : Nat)
    (conn : ConnectionModel) (identity : Identity) :
    ManagerState × Nat × List Effect :=
  match findPeer st pid with
  | none => (st, pid, [])
  | some peer =>
    match peer.identity with
    | none => (st, pid, [])
    | some oldId =>
      if oldId = identity then (st, pid, [])
      else
        let st1 := updatePeer st pid (fun q =>
          (q.removeConnection cid).updateRetry conn.ctype conn.direction
            (fun r => r.neverRetryConnecting))
        let (st2, newPid) := getOrCreatePeer st1 (some identity)
        if conn.ctype = .webRtc then
          let (st3, effs) := setWebRtcConnection st2 newPid conn
          (st3, newPid, effs)
        else
          let st3 :=
            if conn.direction = .outbound ∧ peer.address.isSome then
              updatePeer
                (updatePeer st2 newPid (fun q =>
                  { q with address := peer.address, port := peer.port }))
                pid (fun q => { q with address := none, port := none })
            else st2
          let (st4, effs) := setWebSocketConnection st3 newPid conn
          (st4, newPid, effs)

/-- The duplicate-connection arbitration of the handshake: starting from the
newly arriving connection as the default loser, keep the remote's outbound
connection when `canKeepDuplicateConnection(identity, local)` holds and our
outbound connection when `canKeepDuplicateConnection(local, identity)`
holds.  Returns the `cid` of the connection to close. -/
def chooseConnectionToClose (cfg : Config) (conn exC : ConnectionModel)
    (identity : Identity) : Nat :=
  let c1 := conn.cid
  let c2 :=
    if canKeepDuplicateConnection identity cfg.localIdentity then
      if conn.direction = .outbound then conn.cid
      else if exC.direction = .outbound then exC.cid
      else c1
    else c1
  if canKeepDuplicateConnection cfg.localIdentity identity then
    if conn.direction = .inbound then conn.cid
    else if exC.direction = .inbound then exC.cid
    else c2
  else c2

/-- The tail of the handshake after arbitration: adopt the advertised port
onto an inbound WebSocket connection, populate name, worker flag and version
on the peer, repeat the disconnect notice and close when we told this remote
to stay away until a future time, and otherwise transition the connection to
`CONNECTED { identity }` — which also records the identity on the peer
(spec sections 4.D and 8). -/
def finishHandshake (cfg : Config) (st : ManagerState) (pid : Nat) (cid : Nat)
    (conn : ConnectionModel) (identity : Identity) (version : Nat)
    (port : Option Nat) (name : Option String) (isWorker : Option Bool)
    (existingPid : Option Nat) : ManagerState × List Effect :=
  let st1 :=
    if conn.ctype = .webSocket ∧ conn.direction = .inbound then
      updateConnectionOnPeer st pid cid (fun c => { c with port := port })
    else st
  let st2 := updatePeer st1 pid (fun q =>
    { q with name := name, isWorker := isWorker.getD false,
             version := some version })
  let rejectPayload : Option DisconnectingPayload :=
    match existingPid with
    | some epid =>
      match findPeer st2 epid with
      | some ep =>
        match ep.localRequestedDisconnectUntil with
        | some t =>
          if cfg.now < t then
            some { sourceIdentity := cfg.localIdentity,
                   destinationIdentity := some identity,
                   reason := ep.localRequestedDisconnectReason.getD .congested,
                   disconnectUntil := t }
          else none
        | none => none
      | none => none
    | none => none
  match rejectPayload with
  | some pl =>
    let (st3, closes) := closeConnection st2 cid
    (st3, Effect.sendOnConnection cid (.disconnecting pl) :: closes)
  | none =>
    let st3 := updateConnectionOnPeer st2 pid cid
      (fun c => { c with cstate := .connected identity })
    let st4 := updatePeer st3 pid (fun q => { q with identity := some identity })
    (st4, [.connectedTransition cid identity])

/-- The arbitration-and-finish tail of the handshake, entered once the
claimed identity passed validation, is not our own, and the connection sits
on the record for that identity (after migration when needed). -/
def arbitrateAndFinish (cfg : Config) (st : ManagerState) (pid : Nat)
    (cid : Nat) (conn : ConnectionModel) (identity : Identity) (version : Nat)
    (port : Option Nat) (name : Option String) (isWorker : Option Bool) :
    ManagerState × List Effect :=
  let existingPid := mget st.identifiedPeers identity
  let dup : Option ConnectionModel :=
    match existingPid with
    | none => none
    | some epid =>
      match findPeer st epid with
      | none => none
      | some ep =>
        if ep.stateType == .connected ∧ conn.ctype = .webSocket then
          ep.wsConnection
        else none
  match dup with
  | some exC =>
    let closeCid := chooseConnectionToClose cfg conn exC identity
    let (st1, closes) := closeConnection st closeCid
    if closeCid = cid then (st1, closes)
    else
      let (st2, effs) :=
        finishHandshake cfg st1 pid cid conn identity version port name
          isWorker existingPid
      (st2, closes ++ effs)
  | none =>
    finishHandshake cfg st pid cid conn identity version port name isWorker
      existingPid

/-- `handleWaitingForIdentityMessage`: the handshake run on the first frame
of a fresh connection — close on any non-`Identify` frame, validate the
identity format, version compatibility and name length, tear down a
connection claiming our own identity, migrate a connection whose record had
a different identity, arbitrate duplicate WebSocket connections, and finally
complete or refuse the handshake. -/
def handleWaitingForIdentityMessage (cfg : Config) (st : ManagerState)
    (pid : Nat) (cid : Nat) (msg : PMessage) : ManagerState × List Effect :=
  match findPeer st pid with
  | none => (st, [])
  | some peer =>
    match peer.findConnection cid with
    | none => (st, [])
    | some conn =>
      match msg with
      | .identify pl =>
        let identity := pl.identity
        let version := pl.version
        let port := pl.port
        let name := jsStrOrNone pl.name
        if !(isIdentity identity) then
          failHandshakeValidation cfg st pid conn
        else if !(versionsAreCompatible cfg.localVersion version) then
          failHandshakeValidation cfg st pid conn
        else if (match name with
                 | some n => decide (n.length > 32)
                 | none => false) then
          failHandshakeValidation cfg st pid conn
        else if identity = cfg.localIdentity then
          let st1 := updatePeer st pid (selfIdentityUpdate cid conn)
          let st2 := (tryDisposePeer st1 pid).1
          (st2, [.closedConnection cid])
        else
          let (st1, pid1, effsM) := migrateIfMismatched st pid cid conn identity
          let (st2, effs) :=
            arbitrateAndFinish cfg st1 pid1 cid conn identity version port
              name pl.isWorker
          (st2, effsM ++ effs)
      | _ => peerClose st pid

/-- `handleMessage`: the dispatch switch over every received message —
`Disconnecting` first, then the handshake branch for connections still in
`WAITING_FOR_IDENTITY`, then the overlay-control handlers; a late `Identify`
is only logged; anything else is either emitted on `onMessage` (identified
peer) or closes the peer (unidentified). -/
def handleMessage (cfg : Config) (st : ManagerState) (pid : Nat) (cid : Nat)
    (msg : PMessage) : ManagerState × List Effect :=
  match msg with
  | .disconnecting pl => handleDisconnectingMessage cfg st pid pl
  | _ =>
    let waiting : Bool :=
      match findPeer st pid with
      | some p =>
        match p.findConnection cid with
        | some c => c.cstate == .waitingForIdentity
        | none => false
      | none => false
    if waiting then handleWaitingForIdentityMessage cfg st pid cid msg
    else
      match msg with
      | .identify _ => (st, [])
      | .signalRequest pl => handleSignalRequestMessage cfg st pid pl
      | .signal pl => handleSignalMessage cfg st pid pl
      | .peerList entries => handlePeerListMessage cfg st pid entries
      | _ =>
        match findPeer st pid with
        | none => (st, [])
        | some p =>
          match p.identity with
          | none => peerClose st pid
          | some i => (st, [.emitOnMessage pid i msg])

/-- `canConnectToWebSocket`: the dial-admission predicate for the direct
transport (below `targetPeers` or already non-disconnected; no active
peer-requested disconnect window; empty WebSocket slot; retry allows; an
address is configured). -/
def canConnectToWebSocket (cfg : Config) (st : ManagerState) (pid : Nat) : Bool :=
  match findPeer st pid with
  | none => false
  | some p =>
    let canEstablishNewConnection :=
      !(p.stateType == .disconnected) ||
        decide (getPeersWithConnectionCount st < cfg.targetPeers)
    let disconnectOk :=
      match p.peerRequestedDisconnectUntil with
      | none => true
      | some t => decide (t ≤ cfg.now)
    let hasNoConnection :=
      p.stateType == .disconnected || !p.wsConnection.isSome
    let retryOk := (p.getConnectionRetry .webSocket .outbound).canConnect cfg.now
    canEstablishNewConnection && disconnectOk && hasNoConnection && retryOk &&
      p.address.isSome

/-- `initWebSocketConnection`: creates a WebSocket connection in `CONNECTING`
and installs it in the peer's WebSocket slot. -/
def initWebSocketConnection (st : ManagerState) (pid : Nat)
    (direction : ConnectionDirection) (hostname : Option String)
    (port : Option Nat) : ManagerState × Nat × List Effect :=
  let cid := st.nextCid
  let conn : ConnectionModel :=
    { cid := cid, ctype := .webSocket, direction := direction,
      cstate := .connecting, hostname := hostname, port := port }
  let st1 := { st with nextCid := st.nextCid + 1 }
  let (st2, closes) := setWebSocketConnection st1 pid conn
  (st2, cid, Effect.wsConnectionCreated pid cid :: closes)

/-- `connectToWebSocket(peer)`: subject to the dial-admission predicate,
clears the disconnect windows and dials the configured address, recording a
failed connection when no address is available. -/
def connectToWebSocket (cfg : Config) (st : ManagerState) (pid : Nat) :
    ManagerState × Bool × List Effect :=
  if !(canConnectToWebSocket cfg st pid) then (st, false, [])
  else
    let st1 := updatePeer st pid (fun q =>
      { q with
        localRequestedDisconnectUntil := none,
        localRequestedDisconnectReason := none,
        peerRequestedDisconnectUntil := none,
        peerRequestedDisconnectReason := none })
    match findPeer st1 pid with
    | none => (st1, false, [])
    | some p =>
      match p.address with
      | none =>
        (updatePeer st1 pid (fun q =>
          q.updateRetry .webSocket .outbound
            (fun r => r.failedConnection cfg.now q.isWhitelisted)),
         false, [])
      | some _ =>
        let (st2, _, effs) := initWebSocketConnection st1 pid .outbound
          p.address p.port
        (st2, true, effs)

/-- `connectToWebSocketAddress(uri)`: parse the URI, raise an error when no
hostname can be parsed, and otherwise create a fresh record carrying the
parsed address and dial it.  The state is returned in either case so that a
throw interrupting the body would be visible as a partially mutated state;
the hostname check precedes every mutation, so the error case returns the
input state untouched. -/
def connectToWebSocketAddress (cfg : Config) (st : ManagerState) (uri : String)
    (isWhitelisted : Bool := false) :
    ManagerState × Except String (Nat × List Effect) :=
  match cfg.parseUrlHostname uri with
  | none =>
    (st, .error ("Could not connect to " ++ uri ++ " because hostname was not parseable"))
  | some hostname =>
    let (st1, pid) := getOrCreatePeer st none
    let st2 := updatePeer st1 pid (fun q =>
      { q with address := some hostname, port := cfg.parseUrlPort uri,
               isWhitelisted := isWhitelisted })
    let (st3, _, effs) := connectToWebSocket cfg st2 pid
    (st3, .ok (pid, effs))

/-- The single-hop relay result shared by the `Disconnecting`, `Signal` and
`SignalRequest` handlers for a message not addressed to us: one send to the
destination when the sender is the origin and the destination is a known
identified peer, nothing otherwise. -/
def forwardedEffects (dst : Option Nat) (senderIdentity : Option Identity)
    (src : Identity) (msg : PMessage) : List Effect :=
  match dst, senderIdentity with
  | some dpid, some sid => if sid = src then [.sendToPeer dpid msg] else []
  | _, _ => []

/-- The connection-relevant core of a peer record — everything except the
mutable bookkeeping (`knownPeers`, names, addresses, retries).  Operations
that only touch known-peer edges preserve it. -/
def peerCore (p : PeerModel) :
    Nat × Option Identity × Option ConnectionModel × Option ConnectionModel :=
  (p.pid, p.identity, p.wsConnection, p.rtcConnection)

/-!
### Concrete fixtures

Identities are 44-character strings (32 bytes rendered as base64).  The
fixtures below are the concrete states used by witnesses and
counterexamples.
-/

/-- A fixture identity, lexicographically small. -/
def idA : Identity := "aaaaaaaaaaaaaaaaaaaaaaaaaaaaaaaaaaaaaaaaaaaa"

/-- A fixture identity between `idA` and `idZ`. -/
def idB : Identity := "bbbbbbbbbbbbbbbbbbbbbbbbbbbbbbbbbbbbbbbbbbbb"

/-- A fixture identity between `idB` and `idZ`. -/
def idC : Identity := "cccccccccccccccccccccccccccccccccccccccccccc"

/-- A fixture identity, lexicographically large. -/
def idZ : Identity := "zzzzzzzzzzzzzzzzzzzzzzzzzzzzzzzzzzzzzzzzzzzz"

/-- A fixture environment whose local identity is `idZ`. -/
def cfgZ : Config := { localIdentity := idZ }

/-- A fixture environment whose local identity is `idA`. -/
def cfgA : Config := { localIdentity := idA }

/-- A fixture WebSocket connection in `CONNECTED`, for the record holding
identity `idA`. -/
def connectedWsA : ConnectionModel :=
  { cid := 10, ctype := .webSocket, direction := .inbound,
    cstate := .connected idA }

/-- A fixture record: peer `idA`, `CONNECTED` over `connectedWsA`. -/
def peerA : PeerModel :=
  { pid := 1, identity := some idA, wsConnection := some connectedWsA }

/-- A fixture record: peer `idC`, `CONNECTED` over a WebSocket session. -/
def peerC : PeerModel :=
  { pid := 2, identity := some idC,
    wsConnection := some { cid := 11, ctype := .webSocket,
                           direction := .inbound, cstate := .connected idC } }

/-- A fixture manager state holding the connected peers `idA` and `idC`. -/
def stAC : ManagerState :=
  { peers := [peerA, peerC], identifiedPeers := [(idA, 1), (idC, 2)],
    nextPid := 3, nextCid := 20 }

/-- A fixture record: peer `idB`, `CONNECTED` over a WebSocket session. -/
def peerB : PeerModel :=
  { pid := 1, identity := some idB,
    wsConnection := some { cid := 10, ctype := .webSocket,
                           direction := .inbound, cstate := .connected idB } }

/-- A fixture manager state holding only the connected peer `idB`. -/
def stB : ManagerState :=
  { peers := [peerB], identifiedPeers := [(idB, 1)], nextPid := 2, nextCid := 20 }

/-- A fixture environment with local identity `idZ` and `maxPeers = 1`, so
that `stB` is congested. -/
def cfgCongested : Config := { localIdentity := idZ, maxPeers := 1 }

/-- A fixture environment with local identity `idA` and `maxPeers = 1`. -/
def cfgACongested : Config := { localIdentity := idA, maxPeers := 1 }

/-- A fixture inbound WebSocket connection still waiting for the remote
identity. -/
def connSelfInbound : ConnectionModel :=
  { cid := 30, ctype := .webSocket, direction := .inbound,
    cstate := .waitingForIdentity }

/-- A fixture record with a configured address holding `connSelfInbound`. -/
def peerSelf : PeerModel :=
  { pid := 5, identity := none, address := some "1.2.3.4", port := some 9,
    wsConnection := some connSelfInbound }

/-- A fixture manager state holding only `peerSelf`. -/
def stSelf : ManagerState :=
  { peers := [peerSelf], identifiedPeers := [], nextPid := 6, nextCid := 31 }

/-- A fixture record satisfying all three disposal conditions: no
connections, no known peers, never-retry on the outbound WebSocket slot. -/
def peerDisposable : PeerModel :=
  { pid := 7, identity := some idB, retryWsOut := { neverRetry := true } }

/-- A fixture manager state holding only `peerDisposable`. -/
def stDisposable : ManagerState :=
  { peers := [peerDisposable], identifiedPeers := [(idB, 7)],
    nextPid := 8, nextCid := 0 }

/-- A fixture outbound WebSocket connection in `CONNECTED`, held by the
incumbent record for `idA`. -/
def connExOutA : ConnectionModel :=
  { cid := 10, ctype := .webSocket, direction := .outbound,
    cstate := .connected idA }

/-- A fixture incumbent record: peer `idA`, `CONNECTED` over `connExOutA`. -/
def peerExA : PeerModel :=
  { pid := 1, identity := some idA, wsConnection := some connExOutA }

/-- A fixture inbound WebSocket connection still waiting for the remote
identity, arriving while `connExOutA` is already up. -/
def connNewIn : ConnectionModel :=
  { cid := 11, ctype := .webSocket, direction := .inbound,
    cstate := .waitingForIdentity }

/-- A fixture record holding only the newly arriving `connNewIn`. -/
def peerNewC1 : PeerModel :=
  { pid := 2, identity := none, wsConnection := some connNewIn }

/-- A fixture manager state where `idA` is connected outbound and a second,
unidentified inbound connection has just arrived. -/
def stC1 : ManagerState :=
  { peers := [peerExA, peerNewC1], identifiedPeers := [(idA, 1)],
    nextPid := 3, nextCid := 20 }

/-!
### Lemmas and theorems
-/

theorem mget_mdel_self (m : List (Identity × Nat)) (k : Identity) :
    mget (mdel m k) k = none := by
  induction m with
  | nil => rfl
  | cons e rest ih =>
    by_cases h : e.1 = k
    · simpa [mdel, h] using ih
    · simpa [mdel, mget, h] using ih

theorem find?_pid_filter_none (l : List PeerModel) (pid : Nat) :
    (l.filter (fun q => !(q.pid == pid))).find? (fun p => p.pid == pid) = none := by
  induction l with
  | nil => rfl
  | cons p rest ih =>
    by_cases h : p.pid = pid
    · simp [List.filter_cons, h, ih]
    · simp [List.filter_cons, h, List.find?_cons, ih]

/-- C6: a peer record is removed from the flat peers list and from
`identifiedPeers` by `tryDisposePeer` exactly when its state is
`DISCONNECTED`, none of its `knownPeers` is `CONNECTED`, and its outbound
WebSocket retry is marked never-retry; when any condition fails,
`tryDisposePeer` returns `false` and leaves the state unchanged. -/
theorem C6_dispose_conditions (st : ManagerState) (pid : Nat) (p : PeerModel)
    (hp : findPeer st pid = some p) :
    ((tryDisposePeer st pid).2 = true ↔
      (p.stateType = .disconnected ∧
       p.knownPeers.any (fun kp => peerIsConnectedAt st kp.2) = false ∧
       (p.getConnectionRetry .webSocket .outbound).neverRetry = true)) ∧
    ((tryDisposePeer st pid).2 = true →
      findPeer (tryDisposePeer st pid).1 pid = none ∧
      ∀ id, p.identity = some id →
        mget (tryDisposePeer st pid).1.identifiedPeers id ≠ some pid) ∧
    ((tryDisposePeer st pid).2 = false → (tryDisposePeer st pid).1 = st) := by
  have key : tryDisposePeer st pid =
      (if (p.stateType == PeerStateType.disconnected &&
            !(p.knownPeers.any (fun kp => peerIsConnectedAt st kp.2)) &&
            (p.getConnectionRetry .webSocket .outbound).neverRetry) then
         ({ st with
             peers := st.peers.filter (fun q => !(q.pid == pid)),
             identifiedPeers :=
               match p.identity with
               | some id =>
                 if mget st.identifiedPeers id == some pid then
                   mdel st.identifiedPeers id
                 else st.identifiedPeers
               | none => st.identifiedPeers }, true)
       else (st, false)) := by
    unfold tryDisposePeer
    rw [hp]
  rw [key]
  by_cases hb : (p.stateType == PeerStateType.disconnected &&
      !(p.knownPeers.any (fun kp => peerIsConnectedAt st kp.2)) &&
      (p.getConnectionRetry .webSocket .outbound).neverRetry) = true
  · rw [if_pos hb]
    have hb2 := hb
    rw [Bool.and_eq_true, Bool.and_eq_true] at hb2
    refine ⟨?_, ?_, ?_⟩
    · constructor
      · intro _
        exact ⟨by simpa using hb2.1.1, by simpa using hb2.1.2, hb2.2⟩
      · intro _; rfl
    · intro _
      constructor
      · simp only [findPeer]
        exact find?_pid_filter_none st.peers pid
      · intro id hid
        simp only [hid]
        by_cases hm : (mget st.identifiedPeers id == some pid) = true
        · rw [if_pos hm]
          simp [mget_mdel_self]
        · rw [if_neg hm]
          intro hcontra
          exact hm (by simp [hcontra])
    · intro hfalse
      exact absurd hfalse (by simp)
  · rw [if_neg hb]
    refine ⟨?_, ?_, ?_⟩
    · constructor
      · intro h; exact absurd h (by simp)
      · rintro ⟨h1, h2, h3⟩
        exact absurd (by simp [h1, h2, h3]) hb
    · intro htrue
      exact absurd htrue (by simp)
    · intro _; rfl

/-- C6 witness: `peerDisposable` satisfies the three conditions and is
indeed disposed. -/
theorem C6_dispose_conditions_witness : (tryDisposePeer stDisposable 7).2 = true :=
  ((C6_dispose_conditions stDisposable 7 peerDisposable (by decide)).1).mpr (by decide)

theorem peerClose_effects_closed (st : ManagerState) (pid : Nat) :
    ∀ e ∈ (peerClose st pid).2, ∃ k, e = Effect.closedConnection k := by
  unfold peerClose
  cases hfp : findPeer st pid with
  | none => simp
  | some p =>
    cases hws : p.wsConnection <;> cases hrtc : p.rtcConnection <;>
      simp [hws, hrtc]

/-- C8: an application-layer message (none of the five overlay-control
types) arriving on a connection not in `WAITING_FOR_IDENTITY` is emitted on
`onMessage` with the peer's identity when the peer is identified; when the
peer's identity is `null` the peer is closed (only connection closures are
observable) and nothing reaches `onMessage`. -/
theorem C8_application_message_dispatch (cfg : Config) (st : ManagerState)
    (pid cid : Nat) (t : String) (p : PeerModel) (hp : findPeer st pid = some p)
    (c : ConnectionModel) (hc : p.findConnection cid = some c)
    (hw : c.cstate ≠ .waitingForIdentity) :
    (∀ i, p.identity = some i →
      handleMessage cfg st pid cid (.other t) =
        (st, [.emitOnMessage pid i (.other t)])) ∧
    (p.identity = none →
      handleMessage cfg st pid cid (.other t) = peerClose st pid ∧
      ∀ e ∈ (handleMessage cfg st pid cid (.other t)).2,
        ∃ k, e = Effect.closedConnection k) := by
  have hwb : (c.cstate == ConnectionState.waitingForIdentity) = false := by
    simp [hw]
  constructor
  · intro i hi
    simp only [handleMessage, hp, hc, hwb, hi, Bool.false_eq_true, if_false]
  · intro hi
    have heq : handleMessage cfg st pid cid (.other t) = peerClose st pid := by
      simp only [handleMessage, hp, hc, hwb, hi, Bool.false_eq_true, if_false]
    refine ⟨heq, ?_⟩
    rw [heq]
    exact peerClose_effects_closed st pid

/-- C8 witness: a gossip frame from the identified peer `idA` is emitted on
`onMessage` with that identity. -/
theorem C8_application_message_dispatch_witness :
    handleMessage cfgZ stAC 1 10 (.other "gossip") =
      (stAC, [.emitOnMessage 1 idA (.other "gossip")]) :=
  (C8_application_message_dispatch cfgZ stAC 1 10 "gossip" peerA (by decide)
      connectedWsA (by decide) (by decide)).1 idA (by decide)

/-- C9: `connectToWebSocketAddress` raises the hostname-parse error when the
URI has no parseable hostname, and the state — in particular the peers list
and `identifiedPeers` — is exactly as before the call. -/
theorem C9_connect_bad_uri (cfg : Config) (st : ManagerState) (uri : String)
    (w : Bool) (h : cfg.parseUrlHostname uri = none) :
    (connectToWebSocketAddress cfg st uri w).1 = st ∧
    (connectToWebSocketAddress cfg st uri w).2 =
      .error ("Could not connect to " ++ uri ++
        " because hostname was not parseable") := by
  unfold connectToWebSocketAddress
  rw [h]
  exact ⟨rfl, rfl⟩

/-- C9 witness: the fixture environment parses no hostname, so the call on a
junk URI errors out and leaves the state alone. -/
theorem C9_connect_bad_uri_witness :
    (connectToWebSocketAddress cfgZ stAC "nonsense" false).1 = stAC :=
  (C9_connect_bad_uri cfgZ stAC "nonsense" false rfl).1

theorem filterMap_ite_eq_filter_map {α β : Type} (l : List α) (cond : α → Bool)
    (f : α → β) :
    (l.filterMap (fun a => if cond a then some (f a) else none)) =
      (l.filter cond).map f := by
  induction l with
  | nil => rfl
  | cons a rest ih =>
    by_cases h : cond a = true
    · simp [List.filterMap_cons, List.filter_cons, h, ih]
    · simp [List.filterMap_cons, List.filter_cons, h, ih]

/-- C5 counterexample: the claim omits the `canInitiateWebRTC` pre-check of
`handleSignalRequestMessage`.  In `stB` under `cfgCongested` the manager is
congested (`maxPeers = 1`, one connected peer) and the source `idA` is not a
connected peer, yet — because `canInitiateWebRTC idA idZ` holds — the
request addressed to us is dropped with no `Disconnecting` reply at all. -/
theorem C5_congested_reply_cex :
    shouldRejectDisconnectedPeers cfgCongested stB = true ∧
    mget stB.identifiedPeers idA = none ∧
    canInitiateWebRTC idA cfgCongested.localIdentity = true ∧
    handleSignalRequestMessage cfgCongested stB 1
      { sourceIdentity := idA, destinationIdentity := idZ } = (stB, []) := by
  refine ⟨by decide, by decide, by decide, ?_⟩
  decide

/-- C5 (amended): when a `SignalRequest` addressed to the local peer arrives
while congested, its source is not a connected peer, and — as the source
requires — `canInitiateWebRTC(source, local)` does not hold, the manager
replies through the sender with `Disconnecting(Congested, 1000*60*5 =
300000)` and neither creates a peer record nor initiates signalling (the
state is returned unchanged and the reply is the only effect). -/
theorem C5_congested_reply (cfg : Config) (st : ManagerState) (senderPid : Nat)
    (pl : SignalRequestPayload) (sender : PeerModel)
    (hs : findPeer st senderPid = some sender)
    (hdest : pl.destinationIdentity = cfg.localIdentity)
    (hci : canInitiateWebRTC pl.sourceIdentity pl.destinationIdentity = false)
    (hcong : shouldRejectDisconnectedPeers cfg st = true)
    (hnc : ∀ spid, mget st.identifiedPeers pl.sourceIdentity = some spid →
      peerIsConnectedAt st spid = false) :
    handleSignalRequestMessage cfg st senderPid pl =
      (st, [.sendToPeer senderPid (.disconnecting
        { sourceIdentity := cfg.localIdentity,
          destinationIdentity := some pl.sourceIdentity,
          reason := .congested,
          disconnectUntil := 300000 })]) := by
  have hrej : congestedReject cfg st pl.sourceIdentity = true := by
    unfold congestedReject
    rw [hcong]
    cases hm : mget st.identifiedPeers pl.sourceIdentity with
    | none => simp
    | some spid => simp [hnc spid hm]
  have hmsg : congestedReplyMessage cfg pl.sourceIdentity =
      .disconnecting
        { sourceIdentity := cfg.localIdentity,
          destinationIdentity := some pl.sourceIdentity,
          reason := .congested,
          disconnectUntil := 300000 } := rfl
  unfold handleSignalRequestMessage
  rw [hs]
  rw [hdest] at hci ⊢
  simp [hci, hrej, hmsg]

/-- C5 witness: a congested rejection at a concrete input where the source
may not initiate towards us. -/
theorem C5_congested_reply_witness :
    handleSignalRequestMessage cfgACongested stB 1
      { sourceIdentity := idC, destinationIdentity := idA } =
      (stB, [.sendToPeer 1 (.disconnecting
        { sourceIdentity := idA,
          destinationIdentity := some idC,
          reason := .congested,
          disconnectUntil := 300000 })]) := by
  have h := C5_congested_reply cfgACongested stB 1
    { sourceIdentity := idC, destinationIdentity := idA } peerB (by decide)
    (by decide) (by decide) (by decide)
    (by
      intro spid hsp
      rw [show mget stB.identifiedPeers idC = none from rfl] at hsp
      cases hsp)
  exact h

/-- C3 counterexample: `broadcastPeerList` sends one shared list, and the
recipient is not removed from the copy it receives — peer `idB` is the sole
recipient and its own identity is in the payload sent to it, refuting the
claim that "the recipient itself is not included in the list it
receives". -/
theorem C3_broadcast_cex :
    broadcastPeerList cfgZ stB =
      [.sendToPeer 1 (.peerList (broadcastPeerListEntries cfgZ stB))] ∧
    (broadcastPeerListEntries cfgZ stB).map (fun e => e.identity) = [idB] ∧
    (findPeer stB 1).map (fun p => p.identity) = some (some idB) := by
  refine ⟨?_, by decide, by decide⟩
  decide

/-- C3 (amended): on every 5-second tick, `broadcastPeerList` sends the same
single `PeerList` message to every `CONNECTED` identified peer; its payload
lists every `CONNECTED` identified peer — the recipient itself included —
excluding worker peers unless the local `broadcastWorkers` option is set
(the broadcast interval being the 5000 ms of `start()`). -/
theorem C3_broadcast_peerlist (cfg : Config) (st : ManagerState) :
    broadcastPeerList cfg st =
      ((identifiedPeerRecords st).filter
          (fun p => p.stateType == .connected)).map
        (fun p => .sendToPeer p.pid (.peerList (broadcastPeerListEntries cfg st))) ∧
    (∀ p ∈ identifiedPeerRecords st, p.stateType = .connected →
      (p.isWorker && !cfg.broadcastWorkers) = false →
      ∀ id, p.identity = some id →
        ∃ e ∈ broadcastPeerListEntries cfg st, e.identity = id) ∧
    broadcastPeerListIntervalMs = 5000 := by
  refine ⟨?_, ?_, rfl⟩
  · unfold broadcastPeerList broadcast
    exact filterMap_ite_eq_filter_map (identifiedPeerRecords st) _ _
  · intro p hp hconn hw id hid
    refine ⟨{ identity := id, name := jsStrOrNone p.name,
              address := p.address, port := p.port }, ?_, rfl⟩
    unfold broadcastPeerListEntries
    refine List.mem_filterMap.mpr ⟨p, hp, ?_⟩
    simp [hconn, hw, hid]

/-- C3 witness: in `stB` the sole connected peer `idB` appears in the
broadcast payload. -/
theorem C3_broadcast_peerlist_witness :
    ∃ e ∈ broadcastPeerListEntries cfgZ stB, e.identity = idB :=
  (C3_broadcast_peerlist cfgZ stB).2.1 peerB (by decide) (by decide) (by decide)
    idB (by decide)

theorem handleDisconnectingMessage_found (cfg : Config) (st : ManagerState)
    (senderPid : Nat) (sender : PeerModel) (pl : DisconnectingPayload)
    (hs : findPeer st senderPid = some sender) :
    handleDisconnectingMessage cfg st senderPid pl =
      (if pl.destinationIdentity ≠ some cfg.localIdentity ∧
          pl.destinationIdentity ≠ none then
        if some pl.sourceIdentity ≠ sender.identity then (st, [])
        else
          match pl.destinationIdentity with
          | some dest =>
            match mget st.identifiedPeers dest with
            | none => (st, [])
            | some dpid => (st, [.sendToPeer dpid (.disconnecting pl)])
          | none => (st, [])
      else
        let st1 := updatePeer st senderPid (fun p =>
          { p with
            peerRequestedDisconnectReason := some pl.reason,
            peerRequestedDisconnectUntil := some pl.disconnectUntil })
        peerClose st1 senderPid) := by
  unfold handleDisconnectingMessage
  rw [hs]

theorem handleSignalMessage_found (cfg : Config) (st : ManagerState)
    (senderPid : Nat) (sender : PeerModel) (pl : SignalPayload)
    (hs : findPeer st senderPid = some sender) :
    handleSignalMessage cfg st senderPid pl =
      (if pl.destinationIdentity ≠ cfg.localIdentity then
        if some pl.sourceIdentity ≠ sender.identity then (st, [])
        else
          match mget st.identifiedPeers pl.destinationIdentity with
          | none => (st, [])
          | some dpid => (st, [.sendToPeer dpid (.signal pl)])
      else if congestedReject cfg st pl.sourceIdentity then
        (st, [.sendToPeer senderPid (congestedReplyMessage cfg pl.sourceIdentity)])
      else
        let (st1, spid) := getOrCreatePeer st (some pl.sourceIdentity)
        ensureSignalingConnection cfg st1 senderPid spid pl) := by
  unfold handleSignalMessage
  rw [hs]

theorem handleSignalRequestMessage_found (cfg : Config) (st : ManagerState)
    (senderPid : Nat) (sender : PeerModel) (pl : SignalRequestPayload)
    (hs : findPeer st senderPid = some sender) :
    handleSignalRequestMessage cfg st senderPid pl =
      (if canInitiateWebRTC pl.sourceIdentity pl.destinationIdentity then (st, [])
      else if pl.destinationIdentity ≠ cfg.localIdentity then
        if some pl.sourceIdentity ≠ sender.identity then (st, [])
        else
          match mget st.identifiedPeers pl.destinationIdentity with
          | none => (st, [])
          | some dpid => (st, [.sendToPeer dpid (.signalRequest pl)])
      else if congestedReject cfg st pl.sourceIdentity then
        (st, [.sendToPeer senderPid (congestedReplyMessage cfg pl.sourceIdentity)])
      else
        let (st1, targetPid) := getOrCreatePeer st (some pl.sourceIdentity)
        let (st2, effsA) := addKnownPeerTo st1 targetPid senderPid
        match findPeer st2 targetPid with
        | none => (st2, effsA)
        | some target =>
          if !(target.stateType == .disconnected) && target.rtcConnection.isSome then
            (st2, effsA)
          else
            let (st3, _, effsB) := initWebRtcConnection st2 senderPid targetPid true
            (st3, effsA ++ effsB)) := by
  unfold handleSignalRequestMessage
  rw [hs]

/-- C2 counterexample: a `SignalRequest` from `idA` towards the known
identified peer `idC`, received from `idA` itself and not addressed to us,
satisfies every condition of the claim's iff, yet is dropped — not
forwarded — because `canInitiateWebRTC idA idC` holds. -/
theorem C2_forward_cex :
    (findPeer stAC 1).map (fun p => p.identity) = some (some idA) ∧
    mget stAC.identifiedPeers idC = some 2 ∧
    idC ≠ cfgZ.localIdentity ∧
    canInitiateWebRTC idA idC = true ∧
    handleSignalRequestMessage cfgZ stAC 1
      { sourceIdentity := idA, destinationIdentity := idC } = (stAC, []) := by
  refine ⟨by decide, by decide, by decide, by decide, ?_⟩
  decide

/-- C2 (amended): a `Signal` not addressed to us, and a `Disconnecting` with
a non-null destination that is not us, are forwarded — one send to the
destination peer, nothing else — iff the message's source equals the
sender's identity and the destination is in `identifiedPeers`; a
`SignalRequest` obeys the same rule except that it is dropped outright
whenever `canInitiateWebRTC(source, destination)` holds; a `Disconnecting`
with a null destination is handled locally (close the sender) and is never
forwarded. -/
theorem C2_forward_rules (cfg : Config) (st : ManagerState) (senderPid : Nat)
    (sender : PeerModel) (hs : findPeer st senderPid = some sender) :
    (∀ pl : DisconnectingPayload, ∀ d, pl.destinationIdentity = some d →
      d ≠ cfg.localIdentity →
      handleDisconnectingMessage cfg st senderPid pl =
        (st, forwardedEffects (mget st.identifiedPeers d) sender.identity
              pl.sourceIdentity (.disconnecting pl))) ∧
    (∀ pl : DisconnectingPayload, pl.destinationIdentity = none →
      ∀ e ∈ (handleDisconnectingMessage cfg st senderPid pl).2,
        ∃ k, e = Effect.closedConnection k) ∧
    (∀ pl : SignalPayload, pl.destinationIdentity ≠ cfg.localIdentity →
      handleSignalMessage cfg st senderPid pl =
        (st, forwardedEffects (mget st.identifiedPeers pl.destinationIdentity)
              sender.identity pl.sourceIdentity (.signal pl))) ∧
    (∀ pl : SignalRequestPayload, pl.destinationIdentity ≠ cfg.localIdentity →
      handleSignalRequestMessage cfg st senderPid pl =
        (st, if canInitiateWebRTC pl.sourceIdentity pl.destinationIdentity then []
             else forwardedEffects (mget st.identifiedPeers pl.destinationIdentity)
                    sender.identity pl.sourceIdentity (.signalRequest pl))) := by
  refine ⟨?_, ?_, ?_, ?_⟩
  · intro pl d hd hne
    rw [handleDisconnectingMessage_found cfg st senderPid sender pl hs, hd]
    have hcond : ((some d : Option Identity) ≠ some cfg.localIdentity ∧
        (some d : Option Identity) ≠ none) := ⟨by simpa using hne, by simp⟩
    rw [if_pos hcond]
    cases hsi : sender.identity with
    | none =>
      cases hm : mget st.identifiedPeers d <;> simp [forwardedEffects, hm]
    | some sid =>
      by_cases hx : sid = pl.sourceIdentity
      · cases hm : mget st.identifiedPeers d <;>
          simp [forwardedEffects, hm, hx]
      · cases hm : mget st.identifiedPeers d <;>
          simp [forwardedEffects, hm, hx, Ne.symm hx]
  · intro pl hd
    rw [handleDisconnectingMessage_found cfg st senderPid sender pl hs, hd]
    have hcond : ¬((none : Option Identity) ≠ some cfg.localIdentity ∧
        (none : Option Identity) ≠ none) := by simp
    rw [if_neg hcond]
    exact peerClose_effects_closed _ senderPid
  · intro pl hne
    rw [handleSignalMessage_found cfg st senderPid sender pl hs, if_pos hne]
    cases hsi : sender.identity with
    | none =>
      cases hm : mget st.identifiedPeers pl.destinationIdentity <;>
        simp [forwardedEffects, hm]
    | some sid =>
      by_cases hx : sid = pl.sourceIdentity
      · cases hm : mget st.identifiedPeers pl.destinationIdentity <;>
          simp [forwardedEffects, hm, hx]
      · cases hm : mget st.identifiedPeers pl.destinationIdentity <;>
          simp [forwardedEffects, hm, hx, Ne.symm hx]
  · intro pl hne
    rw [handleSignalRequestMessage_found cfg st senderPid sender pl hs]
    by_cases hci : canInitiateWebRTC pl.sourceIdentity pl.destinationIdentity = true
    · simp [hci]
    · rw [if_neg hci, if_pos hne]
      have hci2 :
          (if canInitiateWebRTC pl.sourceIdentity pl.destinationIdentity then
            ([] : List Effect)
          else forwardedEffects (mget st.identifiedPeers pl.destinationIdentity)
                sender.identity pl.sourceIdentity (.signalRequest pl)) =
          forwardedEffects (mget st.identifiedPeers pl.destinationIdentity)
            sender.identity pl.sourceIdentity (.signalRequest pl) := by
        simp [hci]
      rw [hci2]
      cases hsi : sender.identity with
      | none =>
        cases hm : mget st.identifiedPeers pl.destinationIdentity <;>
          simp [forwardedEffects, hm]
      | some sid =>
        by_cases hx : sid = pl.sourceIdentity
        · cases hm : mget st.identifiedPeers pl.destinationIdentity <;>
            simp [forwardedEffects, hm, hx]
        · cases hm : mget st.identifiedPeers pl.destinationIdentity <;>
            simp [forwardedEffects, hm, hx, Ne.symm hx]

theorem find?_pid_map_update (l : List PeerModel) (x : Nat)
    (g : PeerModel → PeerModel) (hg : ∀ q, (g q).pid = q.pid) (pid : Nat) :
    (l.map (fun q => if q.pid = x then g q else q)).find? (fun p => p.pid == pid) =
      (l.find? (fun p => p.pid == pid)).map (fun q => if q.pid = x then g q else q) := by
  induction l with
  | nil => rfl
  | cons q rest ih =>
    have hpid : (if q.pid = x then g q else q).pid = q.pid := by
      by_cases hx : q.pid = x <;> simp [hx, hg]
    simp only [List.map_cons]
    by_cases hq : q.pid = pid
    · have hb1 : ((if q.pid = x then g q else q).pid == pid) = true := by
        rw [hpid]; exact beq_iff_eq.mpr hq
      have hb2 : (q.pid == pid) = true := beq_iff_eq.mpr hq
      simp [List.find?_cons, hb1, hb2]
    · have hb1 : ((if q.pid = x then g q else q).pid == pid) = false := by
        rw [hpid]; exact beq_eq_false_iff_ne.mpr hq
      have hb2 : (q.pid == pid) = false := beq_eq_false_iff_ne.mpr hq
      simp [List.find?_cons, hb1, hb2, ih]

theorem findPeer_updatePeer (st : ManagerState) (x : Nat)
    (g : PeerModel → PeerModel) (hg : ∀ q, (g q).pid = q.pid) (pid : Nat) :
    findPeer (updatePeer st x g) pid =
      (findPeer st pid).map (fun q => if q.pid = x then g q else q) := by
  unfold findPeer updatePeer
  exact find?_pid_map_update st.peers x g hg pid

theorem findPeer_core_updatePeer (st : ManagerState) (x : Nat)
    (g : PeerModel → PeerModel) (hg : ∀ q, peerCore (g q) = peerCore q)
    (pid : Nat) :
    (findPeer (updatePeer st x g) pid).map peerCore =
      (findPeer st pid).map peerCore := by
  have hgp : ∀ q, (g q).pid = q.pid := fun q => congrArg Prod.fst (hg q)
  rw [findPeer_updatePeer st x g hgp pid]
  cases findPeer st pid with
  | none => rfl
  | some q =>
    by_cases hx : q.pid = x
    · simp [hx, hg]
    · simp [hx]

theorem addKnownPeerToAux_core (fuel : Nat) :
    ∀ (st : ManagerState) (a b : Nat) (e : Bool) (pid : Nat),
    (findPeer (addKnownPeerToAux fuel st a b e).1 pid).map peerCore =
      (findPeer st pid).map peerCore := by
  induction fuel with
  | zero => intro st a b e pid; rfl
  | succ n ih =>
    intro st a b e pid
    unfold addKnownPeerToAux
    split
    · rfl
    next pa hfa =>
      split
      · rfl
      next pb hfb =>
        split
        · rfl
        next pi hia =>
          split
          · rfl
          next ai hib =>
            split
            · rfl
            next hpi =>
              have hcore : ∀ q : PeerModel,
                  peerCore { q with knownPeers := mset q.knownPeers pi a } =
                    peerCore q := fun q => rfl
              split
              next st1 effs1 hpair =>
                have hpres : (findPeer st1 pid).map peerCore =
                    (findPeer st pid).map peerCore := by
                  by_cases hhas : (mhas pb.knownPeers pi) = false
                  · rw [if_pos hhas] at hpair
                    have hst1 : st1 = updatePeer st b (fun q =>
                        { q with knownPeers := mset q.knownPeers pi a }) :=
                      (congrArg Prod.fst hpair.symm)
                    rw [hst1]
                    exact findPeer_core_updatePeer st b _ hcore pid
                  · rw [if_neg hhas] at hpair
                    have hst1 : st1 = st := (congrArg Prod.fst hpair.symm)
                    rw [hst1]
                split
                next q hq1 =>
                  split
                  next st2 effs2 heqrec =>
                    show Option.map peerCore (findPeer
                        (if mhas q.knownPeers ai = false then (st2, effs1 ++ effs2)
                         else (st1, effs1)).1 pid) =
                      Option.map peerCore (findPeer st pid)
                    by_cases hk : mhas q.knownPeers ai = false
                    · rw [if_pos hk]
                      have h := ih st1 b a true pid
                      rw [heqrec] at h
                      exact h.trans hpres
                    · rw [if_neg hk]
                      exact hpres
                next hq1 =>
                  split
                  next st2 effs2 heqrec =>
                    show Option.map peerCore (findPeer
                        (if mhas ([] : List (Identity × Nat)) ai = false then
                          (st2, effs1 ++ effs2) else (st1, effs1)).1 pid) =
                      Option.map peerCore (findPeer st pid)
                    rw [if_pos (show mhas ([] : List (Identity × Nat)) ai = false from rfl)]
                    have h := ih st1 b a true pid
                    rw [heqrec] at h
                    exact h.trans hpres

theorem addKnownPeerToAux_effects (fuel : Nat) :
    ∀ (st : ManagerState) (a b : Nat) (e : Bool),
    ∀ ef ∈ (addKnownPeerToAux fuel st a b e).2,
      ∃ k, ef = Effect.emitKnownPeersChanged k := by
  induction fuel with
  | zero => intro st a b e ef hef; cases hef
  | succ n ih =>
    intro st a b e
    unfold addKnownPeerToAux
    split
    · intro ef hef; cases hef
    next pa hfa =>
      split
      · intro ef hef; cases hef
      next pb hfb =>
        split
        · intro ef hef; cases hef
        next pi hia =>
          split
          · intro ef hef; cases hef
          next ai hib =>
            split
            · intro ef hef; cases hef
            next hpi =>
              split
              next st1 effs1 hpair =>
                have heffs1 : ∀ ef ∈ effs1,
                    ∃ k, ef = Effect.emitKnownPeersChanged k := by
                  by_cases hhas : (mhas pb.knownPeers pi) = false
                  · rw [if_pos hhas] at hpair
                    have he : effs1 =
                        (if e then [Effect.emitKnownPeersChanged b] else []) :=
                      (congrArg Prod.snd hpair.symm)
                    rw [he]
                    cases e <;> simp
                  · rw [if_neg hhas] at hpair
                    have he : effs1 = [] := (congrArg Prod.snd hpair.symm)
                    rw [he]
                    intro ef hef; cases hef
                split
                next q hq1 =>
                  split
                  next st2 effs2 heqrec =>
                    show ∀ ef ∈ ((if mhas q.knownPeers ai = false then
                        (st2, effs1 ++ effs2) else (st1, effs1)) :
                          ManagerState × List Effect).2,
                      ∃ k, ef = Effect.emitKnownPeersChanged k
                    by_cases hk : mhas q.knownPeers ai = false
                    · rw [if_pos hk]
                      intro ef hef
                      rcases List.mem_append.mp hef with h1 | h1
                      · exact heffs1 ef h1
                      · have h := ih st1 b a true ef
                        rw [heqrec] at h
                        exact h h1
                    · rw [if_neg hk]
                      exact heffs1
                next hq1 =>
                  split
                  next st2 effs2 heqrec =>
                    show ∀ ef ∈ ((if mhas ([] : List (Identity × Nat)) ai = false then
                        (st2, effs1 ++ effs2) else (st1, effs1)) :
                          ManagerState × List Effect).2,
                      ∃ k, ef = Effect.emitKnownPeersChanged k
                    rw [if_pos (show mhas ([] : List (Identity × Nat)) ai = false from rfl)]
                    intro ef hef
                    rcases List.mem_append.mp hef with h1 | h1
                    · exact heffs1 ef h1
                    · have h := ih st1 b a true ef
                      rw [heqrec] at h
                      exact h h1

/-- C2 witness: a `Signal` from `idA` towards the known identified peer
`idC`, received from `idA`, is forwarded to `idC`'s record unchanged. -/
theorem C2_forward_rules_witness :
    handleSignalMessage cfgZ stAC 1
      { sourceIdentity := idA, destinationIdentity := idC,
        nonce := "n", signal := "s" } =
      (stAC, [.sendToPeer 2 (.signal
        { sourceIdentity := idA, destinationIdentity := idC,
          nonce := "n", signal := "s" })]) := by
  have h := ((C2_forward_rules cfgZ stAC 1 peerA (by decide)).2.2.1
    { sourceIdentity := idA, destinationIdentity := idC,
      nonce := "n", signal := "s" } (by decide))
  rw [h]
  decide

theorem find?_pid_append_fresh (l : List PeerModel) (p : PeerModel)
    (h : ∀ q ∈ l, q.pid ≠ p.pid) :
    (l ++ [p]).find? (fun r => r.pid == p.pid) = some p := by
  induction l with
  | nil => simp [List.find?_cons]
  | cons q rest ih =>
    have hq : (q.pid == p.pid) = false :=
      beq_eq_false_iff_ne.mpr (h q (by simp))
    simp only [List.cons_append, List.find?_cons, hq]
    exact ih (fun r hr => h r (by simp [hr]))

theorem getOrCreatePeer_known (st : ManagerState) (src : Identity) (spid : Nat)
    (hm : mget st.identifiedPeers src = some spid) :
    getOrCreatePeer st (some src) = (st, spid) := by
  simp only [getOrCreatePeer, hm]

theorem getOrCreatePeer_fresh (st : ManagerState) (src : Identity)
    (hm : mget st.identifiedPeers src = none) :
    getOrCreatePeer st (some src) =
      ({ st with
          peers := st.peers ++ [{ pid := st.nextPid, identity := some src }],
          identifiedPeers := mset st.identifiedPeers src st.nextPid,
          nextPid := st.nextPid + 1 }, st.nextPid) := by
  simp only [getOrCreatePeer, hm]

theorem applySignalData_effects (cfg : Config) (st : ManagerState) (cid : Nat)
    (pl : SignalPayload) :
    ∀ e ∈ (applySignalData cfg st cid pl).2,
      (∃ k, e = Effect.closedConnection k) ∨ (∃ d, e = Effect.signalFed cid d) := by
  unfold applySignalData
  cases hu : cfg.unboxMessage pl.signal pl.nonce pl.sourceIdentity with
  | none =>
    simp only [closeConnection]
    intro e he
    have he2 : e = Effect.closedConnection cid := by simpa using he
    exact Or.inl ⟨cid, he2⟩
  | some plaintext =>
    simp only []
    cases hp : cfg.parseSignalData plaintext with
    | none =>
      simp only [closeConnection]
      intro e he
      have he2 : e = Effect.closedConnection cid := by simpa using he
      exact Or.inl ⟨cid, he2⟩
    | some sd =>
      simp only []
      intro e he
      have he2 : e = Effect.signalFed cid sd := by simpa using he
      exact Or.inr ⟨sd, he2⟩

theorem initWebRtcConnection_snd (st : ManagerState) (broker ppid : Nat)
    (init : Bool) :
    (initWebRtcConnection st broker ppid init).2.2 =
      Effect.rtcConnectionCreated ppid st.nextCid init ::
        (setWebRtcConnection { st with nextCid := st.nextCid + 1 } ppid
          { cid := st.nextCid, ctype := .webRtc,
            direction := if init then .outbound else .inbound,
            cstate := .connecting }).2 := rfl

theorem setWebRtcConnection_effects (st : ManagerState) (ppid : Nat)
    (c : ConnectionModel) :
    ∀ e ∈ (setWebRtcConnection st ppid c).2, ∃ k, e = Effect.closedConnection k := by
  unfold setWebRtcConnection
  cases hf : findPeer st ppid with
  | none => intro e he; cases he
  | some p =>
    simp only []
    cases hr : p.rtcConnection with
    | none => intro e he; cases he
    | some old =>
      simp only []
      by_cases hcid : old.cid = c.cid
      · rw [if_pos hcid]
        intro e he; cases he
      · rw [if_neg hcid]
        intro e he
        have he2 : e = Effect.closedConnection old.cid := by simpa using he
        exact ⟨old.cid, he2⟩

theorem initWebRtcConnection_effects (st : ManagerState) (broker ppid : Nat)
    (init : Bool) :
    ∀ e ∈ (initWebRtcConnection st broker ppid init).2.2,
      (∃ cid, e = Effect.rtcConnectionCreated ppid cid init) ∨
      (∃ k, e = Effect.closedConnection k) := by
  rw [initWebRtcConnection_snd]
  intro e he
  rcases List.mem_cons.mp he with he1 | he1
  · exact Or.inl ⟨st.nextCid, he1⟩
  · rcases setWebRtcConnection_effects _ _ _ e he1 with ⟨k, hk⟩
    exact Or.inr ⟨k, hk⟩

/-- The initiator gate of the `Signal` handler tail: a WebRTC connection is
created (as non-initiator) only when `canInitiateWebRTC(source, destination)`
holds; otherwise nothing is created and no signalling data is fed. -/
theorem ensureSignalingConnection_gate (cfg : Config) (st1 : ManagerState)
    (senderPid spid : Nat) (pl : SignalPayload)
    (hdest : pl.destinationIdentity = cfg.localIdentity)
    (hq : ∀ q, findPeer st1 spid = some q →
      q.identity = some pl.sourceIdentity ∧ q.rtcConnection = none) :
    (∀ q cid ini, Effect.rtcConnectionCreated q cid ini ∈
        (ensureSignalingConnection cfg st1 senderPid spid pl).2 →
      canInitiateWebRTC pl.sourceIdentity cfg.localIdentity = true ∧ ini = false) ∧
    (canInitiateWebRTC pl.sourceIdentity cfg.localIdentity = false →
      (∀ q cid ini, Effect.rtcConnectionCreated q cid ini ∉
        (ensureSignalingConnection cfg st1 senderPid spid pl).2) ∧
      (∀ cid dat, Effect.signalFed cid dat ∉
        (ensureSignalingConnection cfg st1 senderPid spid pl).2)) := by
  rcases heqAdd : addKnownPeerTo st1 spid senderPid with ⟨st2, effsA⟩
  have hAeffs : ∀ ef ∈ effsA, ∃ k, ef = Effect.emitKnownPeersChanged k := by
    intro ef hef
    have h := addKnownPeerToAux_effects 2 st1 spid senderPid true ef
    rw [show addKnownPeerToAux 2 st1 spid senderPid true = (st2, effsA)
      from heqAdd] at h
    exact h hef
  have hAnoRtc : ∀ q cid ini, Effect.rtcConnectionCreated q cid ini ∉ effsA := by
    intro q cid ini hmem
    rcases hAeffs _ hmem with ⟨k, hk⟩
    cases hk
  have hAnoFed : ∀ cid dat, Effect.signalFed cid dat ∉ effsA := by
    intro cid dat hmem
    rcases hAeffs _ hmem with ⟨k, hk⟩
    cases hk
  unfold ensureSignalingConnection
  simp only [heqAdd]
  have hAcore : (findPeer st2 spid).map peerCore =
      (findPeer st1 spid).map peerCore := by
    have h := addKnownPeerToAux_core 2 st1 spid senderPid true spid
    rw [show addKnownPeerToAux 2 st1 spid senderPid true = (st2, effsA)
      from heqAdd] at h
    exact h
  cases hfind2 : findPeer st2 spid with
  | none =>
    simp only []
    exact ⟨fun q cid ini hmem => absurd hmem (hAnoRtc q cid ini),
      fun _ => ⟨fun q cid ini => hAnoRtc q cid ini,
        fun cid dat => hAnoFed cid dat⟩⟩
  | some speer =>
    simp only []
    rw [hfind2] at hAcore
    cases hfst : findPeer st1 spid with
    | none => rw [hfst] at hAcore; cases hAcore
    | some q0 =>
      rw [hfst] at hAcore
      have hq0 := hq q0 hfst
      have hcoreEq : peerCore speer = peerCore q0 := by
        simpa using hAcore
      have hident : speer.identity = some pl.sourceIdentity := by
        have h1 : speer.identity = q0.identity :=
          congrArg (fun t => t.2.1) hcoreEq
        rw [h1, hq0.1]
      have hrtc : speer.rtcConnection = none := by
        have h1 : speer.rtcConnection = q0.rtcConnection :=
          congrArg (fun t => t.2.2.2) hcoreEq
        rw [h1, hq0.2]
      have hcond : ((speer.stateType == PeerStateType.disconnected) = true ∨
          speer.rtcConnection = none) := Or.inr hrtc
      rw [if_pos hcond]
      simp only [hident, hdest]
      by_cases hci : canInitiateWebRTC pl.sourceIdentity cfg.localIdentity = true
      · have hnot : ¬((!canInitiateWebRTC pl.sourceIdentity cfg.localIdentity) = true) := by
          simp [hci]
        rw [if_neg hnot]
        rcases heqInit : initWebRtcConnection st2 senderPid spid false
          with ⟨st3, cid3, effsB⟩
        simp only [heqInit]
        rcases heqApp : applySignalData cfg st3 cid3 pl with ⟨st4, effsC⟩
        simp only [heqApp]
        have hBeffs := initWebRtcConnection_effects st2 senderPid spid false
        rw [heqInit] at hBeffs
        have hCeffs := applySignalData_effects cfg st3 cid3 pl
        rw [heqApp] at hCeffs
        constructor
        · intro q cid ini hmem
          refine ⟨hci, ?_⟩
          rcases List.mem_append.mp hmem with hmem1 | hmem2
          · rcases List.mem_append.mp hmem1 with hmem3 | hmem4
            · exact absurd hmem3 (hAnoRtc q cid ini)
            · rcases hBeffs _ hmem4 with ⟨c2, hc2⟩ | ⟨k, hk⟩
              · cases hc2; rfl
              · cases hk
          · rcases hCeffs _ hmem2 with ⟨k, hk⟩ | ⟨d, hd⟩
            · cases hk
            · cases hd
        · intro hcontra
          rw [hci] at hcontra
          cases hcontra
      · have hci2 : canInitiateWebRTC pl.sourceIdentity cfg.localIdentity = false :=
          Bool.eq_false_iff.mpr hci
        have hyes : (!canInitiateWebRTC pl.sourceIdentity cfg.localIdentity) = true := by
          simp [hci2]
        rw [if_pos hyes]
        exact ⟨fun q cid ini hmem => absurd hmem (hAnoRtc q cid ini),
          fun _ => ⟨fun q cid ini => hAnoRtc q cid ini,
            fun cid dat => hAnoFed cid dat⟩⟩

/-- C10: when a `Signal` addressed to the local peer arrives from a source
with no existing WebRTC connection, a new non-initiator WebRTC connection is
created only if `canInitiateWebRTC(sourceIdentity, localIdentity)` holds;
when instead the local peer is the pair's designated initiator the message
is dropped without creating a connection and without feeding any signal
data. -/
theorem C10_signal_initiator_gate (cfg : Config) (st : ManagerState)
    (senderPid : Nat) (sender : PeerModel) (pl : SignalPayload)
    (hs : findPeer st senderPid = some sender)
    (hdest : pl.destinationIdentity = cfg.localIdentity)
    (hfresh : ∀ q ∈ st.peers, q.pid ≠ st.nextPid)
    (hsrc : ∀ spid, mget st.identifiedPeers pl.sourceIdentity = some spid →
      ∀ q, findPeer st spid = some q →
        q.identity = some pl.sourceIdentity ∧ q.rtcConnection = none) :
    (∀ q cid ini, Effect.rtcConnectionCreated q cid ini ∈
        (handleSignalMessage cfg st senderPid pl).2 →
      canInitiateWebRTC pl.sourceIdentity cfg.localIdentity = true ∧
        ini = false) ∧
    (canInitiateWebRTC pl.sourceIdentity cfg.localIdentity = false →
      (∀ q cid ini, Effect.rtcConnectionCreated q cid ini ∉
        (handleSignalMessage cfg st senderPid pl).2) ∧
      (∀ cid dat, Effect.signalFed cid dat ∉
        (handleSignalMessage cfg st senderPid pl).2)) := by
  have hd2 : ¬(pl.destinationIdentity ≠ cfg.localIdentity) := by simp [hdest]
  rw [handleSignalMessage_found cfg st senderPid sender pl hs, if_neg hd2]
  by_cases hcong : congestedReject cfg st pl.sourceIdentity = true
  · rw [if_pos hcong]
    refine ⟨?_, fun _ => ⟨?_, ?_⟩⟩
    · intro q cid ini hmem
      simp at hmem
    · intro q cid ini hmem
      simp at hmem
    · intro cid dat hmem
      simp at hmem
  · rw [if_neg hcong]
    cases hm : mget st.identifiedPeers pl.sourceIdentity with
    | some spid0 =>
      rw [getOrCreatePeer_known st pl.sourceIdentity spid0 hm]
      simp only []
      exact ensureSignalingConnection_gate cfg st senderPid spid0 pl hdest
        (fun q hq => hsrc spid0 hm q hq)
    | none =>
      rw [getOrCreatePeer_fresh st pl.sourceIdentity hm]
      simp only []
      apply ensureSignalingConnection_gate cfg _ senderPid st.nextPid pl hdest
      intro q hq
      have hfp : findPeer
          { st with
            peers := st.peers ++
              [{ pid := st.nextPid, identity := some pl.sourceIdentity }],
            identifiedPeers :=
              mset st.identifiedPeers pl.sourceIdentity st.nextPid,
            nextPid := st.nextPid + 1 } st.nextPid =
          some { pid := st.nextPid, identity := some pl.sourceIdentity } := by
        unfold findPeer
        exact find?_pid_append_fresh st.peers
          { pid := st.nextPid, identity := some pl.sourceIdentity }
          (fun r hr => hfresh r hr)
      rw [hfp] at hq
      injection hq with hq2
      rw [← hq2]
      exact ⟨rfl, rfl⟩

theorem findPeer_pid (st : ManagerState) (pid : Nat) (p : PeerModel)
    (hp : findPeer st pid = some p) : p.pid = pid := by
  unfold findPeer at hp
  have h := List.find?_some hp
  simpa using h

theorem removeConnection_findConnection_none (q : PeerModel) (cid : Nat) :
    (q.removeConnection cid).findConnection cid = none := by
  unfold PeerModel.removeConnection PeerModel.findConnection
  cases hws : q.wsConnection with
  | none =>
    cases hrtc : q.rtcConnection with
    | none => rfl
    | some cr => by_cases h : cr.cid = cid <;> simp [Option.filter, h]
  | some cw =>
    cases hrtc : q.rtcConnection with
    | none => by_cases h : cw.cid = cid <;> simp [Option.filter, h]
    | some cr =>
      by_cases h1 : cw.cid = cid <;> by_cases h2 : cr.cid = cid <;>
        simp [Option.filter, h1, h2]

theorem selfIdentityUpdate_pid (cid : Nat) (c : ConnectionModel) (q : PeerModel) :
    (selfIdentityUpdate cid c q).pid = q.pid := by
  cases hct : c.ctype <;> cases hcd : c.direction <;>
    simp [selfIdentityUpdate, hct, hcd, PeerModel.updateRetry,
      PeerModel.removeConnection]

theorem selfIdentityUpdate_retry (cid : Nat) (c : ConnectionModel)
    (q : PeerModel) :
    ((selfIdentityUpdate cid c q).getConnectionRetry c.ctype
      c.direction).neverRetry = true := by
  cases hct : c.ctype <;> cases hcd : c.direction <;>
    simp [selfIdentityUpdate, hct, hcd, PeerModel.updateRetry,
      PeerModel.getConnectionRetry, ConnectionRetry.neverRetryConnecting]

theorem selfIdentityUpdate_findConnection_none (cid : Nat) (c : ConnectionModel)
    (q : PeerModel) :
    (selfIdentityUpdate cid c q).findConnection cid = none := by
  have base := removeConnection_findConnection_none q cid
  cases hct : c.ctype <;> cases hcd : c.direction <;>
    simpa [selfIdentityUpdate, hct, hcd, PeerModel.updateRetry,
      PeerModel.findConnection] using base

theorem selfIdentityUpdate_address (cid : Nat) (c : ConnectionModel)
    (q : PeerModel) :
    (c.ctype = .webSocket ∧ c.direction = .outbound →
      (selfIdentityUpdate cid c q).address = none ∧
      (selfIdentityUpdate cid c q).port = none) ∧
    (¬(c.ctype = .webSocket ∧ c.direction = .outbound) →
      (selfIdentityUpdate cid c q).address = q.address ∧
      (selfIdentityUpdate cid c q).port = q.port) := by
  cases hct : c.ctype <;> cases hcd : c.direction <;>
    simp [selfIdentityUpdate, hct, hcd, PeerModel.updateRetry,
      PeerModel.removeConnection]

/-- C4 counterexample: an inbound WebSocket connection claiming our own
identity is torn down, but the peer's configured address survives — the
source clears the address only for outbound WebSocket connections, refuting
the claim that "for an inbound connection the peer's address is cleared". -/
theorem C4_self_identity_cex :
    connSelfInbound.direction = .inbound ∧
    connSelfInbound.ctype = .webSocket ∧
    peerSelf.address = some "1.2.3.4" ∧
    cfgZ.localIdentity = idZ ∧
    (findPeer (handleWaitingForIdentityMessage cfgZ stSelf 5 30
        (.identify { identity := idZ, version := 1 })).1 5).map
      (fun p => p.address) = some (some "1.2.3.4") := by
  refine ⟨by decide, by decide, by decide, by decide, ?_⟩
  decide

/-- C4 (amended): a handshake `Identify` claiming the local peer's own
identity (on any transport, either direction, after the format, version and
name validations pass) removes the connection from the peer and closes it,
marks the retry state for the connection's transport and direction as
never-retry, attempts disposal of the peer, and clears the peer's WebSocket
address and port exactly when the connection is an outbound WebSocket
connection — for every other connection, in particular an inbound one, the
address and port are left unchanged. -/
theorem C4_self_identity (cfg : Config) (st : ManagerState) (pid cid : Nat)
    (p : PeerModel) (c : ConnectionModel) (pl : IdentifyPayload)
    (hp : findPeer st pid = some p) (hc : p.findConnection cid = some c)
    (hid : pl.identity = cfg.localIdentity)
    (hvalid : isIdentity pl.identity = true)
    (hver : versionsAreCompatible cfg.localVersion pl.version = true)
    (hname : (match jsStrOrNone pl.name with
              | some n => decide (n.length > 32)
              | none => false) = false) :
    handleWaitingForIdentityMessage cfg st pid cid (.identify pl) =
      ((tryDisposePeer (updatePeer st pid (selfIdentityUpdate cid c)) pid).1,
       [.closedConnection cid]) ∧
    findPeer (updatePeer st pid (selfIdentityUpdate cid c)) pid =
      some (selfIdentityUpdate cid c p) ∧
    ((selfIdentityUpdate cid c p).getConnectionRetry c.ctype
      c.direction).neverRetry = true ∧
    (selfIdentityUpdate cid c p).findConnection cid = none ∧
    (c.ctype = .webSocket ∧ c.direction = .outbound →
      (selfIdentityUpdate cid c p).address = none ∧
      (selfIdentityUpdate cid c p).port = none) ∧
    (¬(c.ctype = .webSocket ∧ c.direction = .outbound) →
      (selfIdentityUpdate cid c p).address = p.address ∧
      (selfIdentityUpdate cid c p).port = p.port) := by
  refine ⟨?_, ?_, selfIdentityUpdate_retry cid c p,
    selfIdentityUpdate_findConnection_none cid c p,
    (selfIdentityUpdate_address cid c p).1,
    (selfIdentityUpdate_address cid c p).2⟩
  · unfold handleWaitingForIdentityMessage
    simp only [hp]
    simp only [hc]
    have h1 : ¬((!(isIdentity pl.identity)) = true) := by simp [hvalid]
    rw [if_neg h1]
    have h2 : ¬((!(versionsAreCompatible cfg.localVersion pl.version)) = true) := by
      simp [hver]
    rw [if_neg h2]
    have h3 : ¬((match jsStrOrNone pl.name with
        | some n => decide (n.length > 32)
        | none => false) = true) := by
      rw [hname]; exact Bool.false_ne_true
    rw [if_neg h3, if_pos hid]
  · have hg : ∀ q, (selfIdentityUpdate cid c q).pid = q.pid :=
      selfIdentityUpdate_pid cid c
    rw [findPeer_updatePeer st pid _ hg pid, hp]
    simp [findPeer_pid st pid p hp]

/-- C4 witness: at the concrete inbound fixture all hypotheses hold and the
handler tears down the connection. -/
theorem C4_self_identity_witness :
    handleWaitingForIdentityMessage cfgZ stSelf 5 30
        (.identify { identity := idZ, version := 1 }) =
      ((tryDisposePeer (updatePeer stSelf 5
          (selfIdentityUpdate 30 connSelfInbound)) 5).1,
       [.closedConnection 30]) :=
  (C4_self_identity cfgZ stSelf 5 30 peerSelf connSelfInbound
    { identity := idZ, version := 1 } (by decide) (by decide) (by decide)
    (by decide) (by decide) (by decide)).1

theorem charListLt_asymm :
    ∀ (x y : List Char), charListLt x y = true → charListLt y x = false := by
  intro x
  induction x with
  | nil =>
    intro y h
    cases y with
    | nil => cases h
    | cons b bs => rfl
  | cons a as ih =>
    intro y h
    cases y with
    | nil => cases h
    | cons b bs =>
      unfold charListLt at h ⊢
      by_cases h1 : a.toNat < b.toNat
      · simp [h1, Nat.lt_asymm h1]
      · by_cases h2 : b.toNat < a.toNat
        · rw [if_neg h1, if_pos h2] at h
          cases h
        · rw [if_neg h1, if_neg h2] at h
          simp only [h1, h2, if_false]
          exact ih bs h

theorem canKeepDuplicateConnection_asymm (a b : Identity)
    (h : canKeepDuplicateConnection a b = true) :
    canKeepDuplicateConnection b a = false :=
  charListLt_asymm a.data b.data h

theorem optFilter_cid (o : Option ConnectionModel) (cid : Nat)
    (c : ConnectionModel)
    (h : o.filter (fun x => x.cid == cid) = some c) : c.cid = cid := by
  cases o with
  | none => cases h
  | some x =>
    by_cases hx : x.cid = cid
    · have h2 : some x = some c := by simpa [Option.filter, hx] using h
      injection h2 with h3
      rw [← h3]
      exact hx
    · simp [Option.filter, hx] at h

theorem findConnection_cid (p : PeerModel) (cid : Nat) (c : ConnectionModel)
    (hc : p.findConnection cid = some c) : c.cid = cid := by
  unfold PeerModel.findConnection at hc
  cases hf : p.wsConnection.filter (fun x => x.cid == cid) with
  | some c0 =>
    rw [hf] at hc
    injection hc with h3
    rw [← h3]
    exact optFilter_cid _ _ _ hf
  | none =>
    rw [hf] at hc
    exact optFilter_cid _ _ _ hc

theorem find?_pid_map (l : List PeerModel) (g : PeerModel → PeerModel)
    (hg : ∀ q, (g q).pid = q.pid) (pid : Nat) :
    (l.map g).find? (fun p => p.pid == pid) =
      (l.find? (fun p => p.pid == pid)).map g := by
  induction l with
  | nil => rfl
  | cons q rest ih =>
    simp only [List.map_cons]
    by_cases hq : q.pid = pid
    · have hb1 : ((g q).pid == pid) = true := by
        rw [hg]; exact beq_iff_eq.mpr hq
      have hb2 : (q.pid == pid) = true := beq_iff_eq.mpr hq
      simp [List.find?_cons, hb1, hb2]
    · have hb1 : ((g q).pid == pid) = false := by
        rw [hg]; exact beq_eq_false_iff_ne.mpr hq
      have hb2 : (q.pid == pid) = false := beq_eq_false_iff_ne.mpr hq
      simp [List.find?_cons, hb1, hb2, ih]

theorem findPeer_closeConnection (st : ManagerState) (x : Nat) (pid : Nat) :
    findPeer (closeConnection st x).1 pid =
      (findPeer st pid).map (fun q => q.removeConnection x) := by
  unfold closeConnection findPeer
  exact find?_pid_map st.peers (fun q => q.removeConnection x) (fun q => rfl) pid

theorem findPeer_updatePeer_ne (st : ManagerState) (x : Nat)
    (g : PeerModel → PeerModel) (hg : ∀ q, (g q).pid = q.pid) (pid : Nat)
    (hne : pid ≠ x) :
    findPeer (updatePeer st x g) pid = findPeer st pid := by
  rw [findPeer_updatePeer st x g hg pid]
  cases hq : findPeer st pid with
  | none => rfl
  | some q =>
    have hqp := findPeer_pid st pid q hq
    simp [hqp, hne]

theorem migrateIfMismatched_none (st : ManagerState) (pid cid : Nat)
    (c : ConnectionModel) (rid : Identity) (p : PeerModel)
    (hp : findPeer st pid = some p) (hpnone : p.identity = none) :
    migrateIfMismatched st pid cid c rid = (st, pid, []) := by
  unfold migrateIfMismatched
  simp only [hp]
  simp only [hpnone]

theorem chooseConnectionToClose_cases (cfg : Config) (c exC : ConnectionModel)
    (rid : Identity) (hdirs : c.direction ≠ exC.direction) :
    (canKeepDuplicateConnection rid cfg.localIdentity = true →
      chooseConnectionToClose cfg c exC rid =
        (if c.direction = .outbound then c.cid else exC.cid)) ∧
    (canKeepDuplicateConnection cfg.localIdentity rid = true →
      chooseConnectionToClose cfg c exC rid =
        (if c.direction = .inbound then c.cid else exC.cid)) ∧
    (canKeepDuplicateConnection rid cfg.localIdentity = false →
      canKeepDuplicateConnection cfg.localIdentity rid = false →
      chooseConnectionToClose cfg c exC rid = c.cid) := by
  refine ⟨?_, ?_, ?_⟩
  · intro hk1
    have hk2 := canKeepDuplicateConnection_asymm _ _ hk1
    cases hd1 : c.direction <;> cases hd2 : exC.direction <;>
      simp [hd1, hd2] at hdirs ⊢ <;>
      simp [chooseConnectionToClose, hk1, hk2, hd1, hd2]
  · intro hk2
    have hk1 := canKeepDuplicateConnection_asymm _ _ hk2
    cases hd1 : c.direction <;> cases hd2 : exC.direction <;>
      simp [hd1, hd2] at hdirs ⊢ <;>
      simp [chooseConnectionToClose, hk1, hk2, hd1, hd2]
  · intro hk1 hk2
    cases hd1 : c.direction <;> cases hd2 : exC.direction <;>
      simp [chooseConnectionToClose, hk1, hk2, hd1, hd2]

theorem finishHandshake_effects_connected (cfg : Config) (st : ManagerState)
    (pid cid : Nat) (conn : ConnectionModel) (identity : Identity)
    (version : Nat) (port : Option Nat) (name : Option String)
    (isWorker : Option Bool) (epid : Nat) (ep : PeerModel)
    (hepne : epid ≠ pid)
    (hep : findPeer st epid = some ep)
    (hwin : ep.localRequestedDisconnectUntil = none) :
    (finishHandshake cfg st pid cid conn identity version port name isWorker
      (some epid)).2 = [.connectedTransition cid identity] := by
  have hg2 : ∀ q : PeerModel,
      ({ q with name := name, isWorker := isWorker.getD false,
                version := some version } : PeerModel).pid = q.pid :=
    fun q => rfl
  simp only [finishHandshake]
  by_cases hcond : conn.ctype = .webSocket ∧ conn.direction = .inbound
  · rw [if_pos hcond]
    have h1 : findPeer (updatePeer
        (updateConnectionOnPeer st pid cid (fun c => { c with port := port }))
        pid (fun q =>
          { q with name := name, isWorker := isWorker.getD false,
                   version := some version })) epid = some ep := by
      have e1 : findPeer (updateConnectionOnPeer st pid cid
          (fun c => { c with port := port })) epid = findPeer st epid := by
        unfold updateConnectionOnPeer
        refine findPeer_updatePeer_ne st pid _ ?_ epid hepne
        intro q
        rfl
      rw [findPeer_updatePeer_ne _ _ _ hg2 _ hepne, e1, hep]
    rw [h1]
    simp only []
    rw [hwin]
  · rw [if_neg hcond]
    have h1 : findPeer (updatePeer st pid (fun q =>
        { q with name := name, isWorker := isWorker.getD false,
                 version := some version })) epid = some ep := by
      rw [findPeer_updatePeer_ne _ _ _ hg2 _ hepne]
      exact hep
    rw [h1]
    simp only []
    rw [hwin]

theorem handleWFI_arbitration_trace (cfg : Config) (st : ManagerState)
    (pid cid : Nat) (p : PeerModel) (c : ConnectionModel)
    (pl : IdentifyPayload) (epid : Nat) (ep : PeerModel)
    (exC : ConnectionModel)
    (hp : findPeer st pid = some p)
    (hc : p.findConnection cid = some c)
    (hcw : c.ctype = .webSocket)
    (hpnone : p.identity = none)
    (hvalid : isIdentity pl.identity = true)
    (hver : versionsAreCompatible cfg.localVersion pl.version = true)
    (hname : (match jsStrOrNone pl.name with
              | some n => decide (n.length > 32)
              | none => false) = false)
    (hnotself : pl.identity ≠ cfg.localIdentity)
    (hm : mget st.identifiedPeers pl.identity = some epid)
    (hepne : epid ≠ pid)
    (hep : findPeer st epid = some ep)
    (hconn : ep.stateType = .connected)
    (hex : ep.wsConnection = some exC)
    (hwin : ep.localRequestedDisconnectUntil = none) :
    (handleWaitingForIdentityMessage cfg st pid cid (.identify pl)).2 =
      (if chooseConnectionToClose cfg c exC pl.identity = cid then
        [Effect.closedConnection (chooseConnectionToClose cfg c exC pl.identity)]
      else
        [Effect.closedConnection (chooseConnectionToClose cfg c exC pl.identity),
         Effect.connectedTransition cid pl.identity]) := by
  unfold handleWaitingForIdentityMessage
  simp only [hp]
  simp only [hc]
  have h1 : ¬((!(isIdentity pl.identity)) = true) := by simp [hvalid]
  rw [if_neg h1]
  have h2 : ¬((!(versionsAreCompatible cfg.localVersion pl.version)) = true) := by
    simp [hver]
  rw [if_neg h2]
  have h3 : ¬((match jsStrOrNone pl.name with
      | some n => decide (n.length > 32)
      | none => false) = true) := by
    rw [hname]; exact Bool.false_ne_true
  rw [if_neg h3, if_neg hnotself]
  rw [migrateIfMismatched_none st pid cid c pl.identity p hp hpnone]
  simp only [arbitrateAndFinish]
  rw [hm]
  simp only []
  rw [hep]
  simp only []
  have hcond : (ep.stateType == PeerStateType.connected) = true ∧
      c.ctype = .webSocket := ⟨by rw [hconn]; decide, hcw⟩
  rw [if_pos hcond, hex]
  simp only [closeConnection]
  by_cases hcc : chooseConnectionToClose cfg c exC pl.identity = cid
  · rw [if_pos hcc, if_pos hcc]
    rfl
  · rw [if_neg hcc, if_neg hcc]
    have hep1 : findPeer
        ({ st with peers := st.peers.map (fun q =>
            q.removeConnection (chooseConnectionToClose cfg c exC pl.identity)) } :
          ManagerState) epid =
        some (ep.removeConnection (chooseConnectionToClose cfg c exC pl.identity)) := by
      have := findPeer_closeConnection st
        (chooseConnectionToClose cfg c exC pl.identity) epid
      simp only [closeConnection] at this
      rw [this, hep]
      rfl
    have hwin1 : (ep.removeConnection
        (chooseConnectionToClose cfg c exC pl.identity)).localRequestedDisconnectUntil =
        none := hwin
    have hfe := finishHandshake_effects_connected cfg
      ({ st with peers := st.peers.map (fun q =>
          q.removeConnection (chooseConnectionToClose cfg c exC pl.identity)) })
      pid cid c pl.identity pl.version pl.port (jsStrOrNone pl.name) pl.isWorker
      epid _ hepne hep1 hwin1
    rcases hres : finishHandshake cfg
        ({ st with peers := st.peers.map (fun q =>
            q.removeConnection (chooseConnectionToClose cfg c exC pl.identity)) })
        pid cid c pl.identity pl.version pl.port (jsStrOrNone pl.name)
        pl.isWorker (some epid) with ⟨st2, effs2⟩
    rw [hres] at hfe
    simp only [hres]
    simp only at hfe
    rw [hfe]
    rfl

/-- C1: when an `Identify` arrives on a fresh WebSocket connection whose
claimed identity already belongs to a CONNECTED peer holding a WebSocket
connection of the opposite direction, exactly one of the two connections is
closed: the outbound one when `canKeepDuplicateConnection(remote, local)`
holds, the inbound one when `canKeepDuplicateConnection(local, remote)`
holds, and the newly arriving one when neither holds; and whenever the new
connection is the loser the handshake aborts — no `CONNECTED` transition is
emitted for it. -/
theorem C1_duplicate_arbitration (cfg : Config) (st : ManagerState)
    (pid cid : Nat) (p : PeerModel) (c : ConnectionModel)
    (pl : IdentifyPayload) (epid : Nat) (ep : PeerModel)
    (exC : ConnectionModel)
    (hp : findPeer st pid = some p)
    (hc : p.findConnection cid = some c)
    (hcw : c.ctype = .webSocket)
    (hpnone : p.identity = none)
    (hvalid : isIdentity pl.identity = true)
    (hver : versionsAreCompatible cfg.localVersion pl.version = true)
    (hname : (match jsStrOrNone pl.name with
              | some n => decide (n.length > 32)
              | none => false) = false)
    (hnotself : pl.identity ≠ cfg.localIdentity)
    (hm : mget st.identifiedPeers pl.identity = some epid)
    (hepne : epid ≠ pid)
    (hep : findPeer st epid = some ep)
    (hconn : ep.stateType = .connected)
    (hex : ep.wsConnection = some exC)
    (hwin : ep.localRequestedDisconnectUntil = none)
    (hcids : c.cid ≠ exC.cid)
    (hdirs : c.direction ≠ exC.direction) :
    ∀ e, e = (handleWaitingForIdentityMessage cfg st pid cid (.identify pl)).2 →
      ((Effect.closedConnection c.cid ∈ e ∧ Effect.closedConnection exC.cid ∉ e) ∨
       (Effect.closedConnection exC.cid ∈ e ∧ Effect.closedConnection c.cid ∉ e)) ∧
      (canKeepDuplicateConnection pl.identity cfg.localIdentity = true →
        Effect.closedConnection
          (if c.direction = .outbound then c.cid else exC.cid) ∈ e ∧
        Effect.closedConnection
          (if c.direction = .outbound then exC.cid else c.cid) ∉ e) ∧
      (canKeepDuplicateConnection cfg.localIdentity pl.identity = true →
        Effect.closedConnection
          (if c.direction = .inbound then c.cid else exC.cid) ∈ e ∧
        Effect.closedConnection
          (if c.direction = .inbound then exC.cid else c.cid) ∉ e) ∧
      (canKeepDuplicateConnection pl.identity cfg.localIdentity = false →
        canKeepDuplicateConnection cfg.localIdentity pl.identity = false →
        Effect.closedConnection c.cid ∈ e ∧
        Effect.closedConnection exC.cid ∉ e) ∧
      (Effect.closedConnection c.cid ∈ e →
        ∀ i, Effect.connectedTransition c.cid i ∉ e) := by
  intro e he
  have hccid : c.cid = cid := findConnection_cid p cid c hc
  have htr := handleWFI_arbitration_trace cfg st pid cid p c pl epid ep exC
    hp hc hcw hpnone hvalid hver hname hnotself hm hepne hep hconn hex hwin
  rw [htr] at he
  obtain ⟨hk1c, hk2c, hk3c⟩ := chooseConnectionToClose_cases cfg c exC pl.identity hdirs
  have hne2 : exC.cid ≠ cid := by
    rw [← hccid]
    exact Ne.symm hcids
  by_cases hb1 : canKeepDuplicateConnection pl.identity cfg.localIdentity = true
  · have hb2 := canKeepDuplicateConnection_asymm _ _ hb1
    have hch := hk1c hb1
    cases hdir : c.direction with
    | outbound =>
      rw [hdir, if_pos rfl] at hch
      rw [hch, hccid, if_pos rfl] at he
      subst he
      refine ⟨Or.inl ⟨by simp [hccid], by simp [hne2]⟩, ?_, ?_, ?_, ?_⟩
      · intro _
        exact ⟨by simp [hdir, hccid], by simp [hdir, hne2]⟩
      · intro hk
        simp [hk] at hb2
      · intro hf _
        simp [hb1] at hf
      · intro _ i
        simp
    | inbound =>
      rw [hdir, if_neg (by decide)] at hch
      rw [hch, if_neg hne2] at he
      subst he
      refine ⟨Or.inr ⟨by simp, by simp [hcids]⟩, ?_, ?_, ?_, ?_⟩
      · intro _
        exact ⟨by simp [hdir], by simp [hdir, hcids]⟩
      · intro hk
        simp [hk] at hb2
      · intro hf _
        simp [hb1] at hf
      · intro hmem i
        simp [hcids] at hmem
  · rw [Bool.not_eq_true] at hb1
    by_cases hb2 : canKeepDuplicateConnection cfg.localIdentity pl.identity = true
    · have hch := hk2c hb2
      cases hdir : c.direction with
      | inbound =>
        rw [hdir, if_pos rfl] at hch
        rw [hch, hccid, if_pos rfl] at he
        subst he
        refine ⟨Or.inl ⟨by simp [hccid], by simp [hne2]⟩, ?_, ?_, ?_, ?_⟩
        · intro hk
          simp [hk] at hb1
        · intro _
          exact ⟨by simp [hdir, hccid], by simp [hdir, hne2]⟩
        · intro _ hf
          simp [hb2] at hf
        · intro _ i
          simp
      | outbound =>
        rw [hdir, if_neg (by decide)] at hch
        rw [hch, if_neg hne2] at he
        subst he
        refine ⟨Or.inr ⟨by simp, by simp [hcids]⟩, ?_, ?_, ?_, ?_⟩
        · intro hk
          simp [hk] at hb1
        · intro _
          exact ⟨by simp [hdir], by simp [hdir, hcids]⟩
        · intro _ hf
          simp [hb2] at hf
        · intro hmem i
          simp [hcids] at hmem
    · rw [Bool.not_eq_true] at hb2
      have hch := hk3c hb1 hb2
      rw [hch, hccid, if_pos rfl] at he
      subst he
      refine ⟨Or.inl ⟨by simp [hccid], by simp [hne2]⟩, ?_, ?_, ?_, ?_⟩
      · intro hk
        simp [hk] at hb1
      · intro hk
        simp [hk] at hb2
      · intro _ _
        exact ⟨by simp [hccid], by simp [hne2]⟩
      · intro _ i
        simp

/-- C1 witness: at the concrete fixture `stC1` — incumbent `idA` connected
outbound, new inbound connection identifying as `idA`, local identity `idZ`
(so the remote may keep its outbound connection) — the incumbent's outbound
connection `10` is the one closed and the new inbound connection `11` is
kept. -/
theorem C1_duplicate_arbitration_witness :
    Effect.closedConnection
        (if connNewIn.direction = .outbound then connNewIn.cid
         else connExOutA.cid) ∈
      [Effect.closedConnection 10, Effect.connectedTransition 11 idA] ∧
    Effect.closedConnection
        (if connNewIn.direction = .outbound then connExOutA.cid
         else connNewIn.cid) ∉
      [Effect.closedConnection 10, Effect.connectedTransition 11 idA] :=
  ((C1_duplicate_arbitration cfgZ stC1 2 11 peerNewC1 connNewIn
      { identity := idA, version := 1 } 1 peerExA connExOutA
      (by decide) (by decide) (by decide) (by decide) (by decide) (by decide)
      (by decide) (by decide) (by decide) (by decide) (by decide) (by decide)
      (by decide) (by decide) (by decide) (by decide)
      [Effect.closedConnection 10, Effect.connectedTransition 11 idA]
      rfl).2.1) (by decide)

/-- C10 witness: under local identity `idA`, a signal from the unknown
source `idC` — whose pair initiator is the local peer, since
`canInitiateWebRTC idC idA` is false — creates no WebRTC connection. -/
theorem C10_signal_initiator_gate_witness :
    Effect.rtcConnectionCreated 2 20 false ∉
      (handleSignalMessage cfgA stB 1
        { sourceIdentity := idC, destinationIdentity := idA,
          nonce := "n", signal := "s" }).2 :=
  ((C10_signal_initiator_gate cfgA stB 1 peerB
    { sourceIdentity := idC, destinationIdentity := idA,
      nonce := "n", signal := "s" }
    (by decide) (by decide) (by decide)
    (by
      intro spid h
      rw [show mget stB.identifiedPeers idC = none from rfl] at h
      cases h)).2 (by decide)).1 2 20 false

theorem updatePeer_id (st : ManagerState) (pid : Nat)
    (f : PeerModel → PeerModel)
    (h : ∀ q ∈ st.peers, q.pid = pid → f q = q) :
    updatePeer st pid f = st := by
  unfold updatePeer
  have h2 : st.peers.map (fun q => if q.pid = pid then f q else q) =
      st.peers.map id := by
    refine List.map_congr_left ?_
    intro q hq
    by_cases hqp : q.pid = pid
    · rw [if_pos hqp]
      exact h q hq hqp
    · rw [if_neg hqp]
      rfl
  rw [h2, List.map_id]

theorem removeStaleStep_acc (nps : List PeerListEntry) (senderPid : Nat)
    (i : Identity) (st : ManagerState) (ch : Bool) (e : Identity × Nat)
    (he : entriesHas nps e.1 = true) :
    removeStaleStep nps senderPid i (st, ch) e = (st, ch) := by
  unfold removeStaleStep
  simp only []
  cases hf : findPeer st senderPid with
  | none => rfl
  | some peer =>
    simp only []
    by_cases hmh : mhas peer.knownPeers e.1 = false
    · rw [if_pos hmh]
    · rw [if_neg hmh, if_pos he]

theorem removeStale_foldl_noop (nps : List PeerListEntry) (senderPid : Nat)
    (i : Identity) :
    ∀ (entries : List (Identity × Nat)) (st : ManagerState) (ch : Bool),
      (∀ e ∈ entries, entriesHas nps e.1 = true) →
      entries.foldl (removeStaleStep nps senderPid i) (st, ch) = (st, ch) := by
  intro entries
  induction entries with
  | nil =>
    intro st ch _
    rfl
  | cons e rest ih =>
    intro st ch h
    rw [List.foldl_cons,
      removeStaleStep_acc nps senderPid i st ch e (h e (List.mem_cons_self e rest))]
    exact ih st ch (fun x hx => h x (List.mem_cons_of_mem e hx))

theorem addKnownPeerToAux_self (fuel : Nat) (st : ManagerState) (pid : Nat)
    (peer : PeerModel) (i : Identity) (e : Bool)
    (hp : findPeer st pid = some peer) (hid : peer.identity = some i) :
    addKnownPeerToAux (fuel + 1) st pid pid e = (st, []) := by
  unfold addKnownPeerToAux
  simp only [hp]
  simp only [hid]
  rw [if_pos trivial]

theorem addKnownPeerTo_self (st : ManagerState) (pid : Nat) (peer : PeerModel)
    (i : Identity) (e : Bool)
    (hp : findPeer st pid = some peer) (hid : peer.identity = some i) :
    addKnownPeerTo st pid pid e = (st, []) :=
  addKnownPeerToAux_self 1 st pid peer i e hp hid

theorem addNew_foldl_fixed (st : ManagerState) (senderPid : Nat)
    (peer : PeerModel) (i : Identity)
    (hp : findPeer st senderPid = some peer)
    (huniq : ∀ q ∈ st.peers, q.pid = senderPid → q = peer)
    (hid : peer.identity = some i)
    (hm : mget st.identifiedPeers i = some senderPid)
    (hself : mhas peer.knownPeers i = false) :
    ∀ (l : List PeerListEntry) (ch : Bool) (es : List Effect),
      (∀ e ∈ l,
        (e.identity ≠ i → mhas peer.knownPeers e.identity = true) ∧
        (e.identity = i →
          peer.address = e.address ∧ peer.port = e.port ∧
          peer.name = jsStrOrNone e.name)) →
      l.foldl (addNewStep senderPid) (st, ch, es) =
        (st, ch || l.any (fun e => e.identity == i), es) := by
  intro l
  induction l with
  | nil =>
    intro ch es _
    simp
  | cons e rest ih =>
    intro ch es h
    by_cases hei : e.identity = i
    · have hfields := (h e (List.mem_cons_self e rest)).2 hei
      have hstep : addNewStep senderPid (st, ch, es) e = (st, true, es) := by
        unfold addNewStep
        simp only [hp]
        rw [hei]
        rw [if_neg (by rw [hself]; exact Bool.false_ne_true)]
        rw [getOrCreatePeer_known st i senderPid hm]
        simp only []
        have hup : updatePeer st senderPid (fun q =>
            { q with address := e.address, port := e.port,
                     name := jsStrOrNone e.name }) = st := by
          refine updatePeer_id st senderPid _ ?_
          intro q hq hqp
          rw [huniq q hq hqp]
          rw [← hfields.1, ← hfields.2.1, ← hfields.2.2]
        rw [hup]
        rw [addKnownPeerTo_self st senderPid peer i false hp hid]
        simp
      rw [List.foldl_cons, hstep,
        ih true es (fun x hx => h x (List.mem_cons_of_mem e hx))]
      have heib : (e.identity == i) = true := beq_iff_eq.mpr hei
      simp [heib]
    · have hknown := (h e (List.mem_cons_self e rest)).1 hei
      have hstep : addNewStep senderPid (st, ch, es) e = (st, ch, es) := by
        unfold addNewStep
        simp only [hp]
        rw [if_pos hknown]
      rw [List.foldl_cons, hstep,
        ih ch es (fun x hx => h x (List.mem_cons_of_mem e hx))]
      have heib : (e.identity == i) = false := beq_eq_false_iff_ne.mpr hei
      simp [heib]

/-- C7: processing a `PeerList` whose content the manager has already fully
incorporated — every listed identity other than the sender's own is already
a known-peer edge of the sender, every known-peer edge is still listed, and
the sender's advertised address, port and name already match its record —
changes nothing: no edge is removed or added, no record is created, and the
state is returned unchanged.  However `onKnownPeersChanged` still fires for
the sender exactly when the list contains the sender's own identity, because
the self edge is never recorded and therefore counts as an addition on every
application. -/
theorem C7_peerlist_fixed_point (cfg : Config) (st : ManagerState)
    (senderPid : Nat) (connectedPeers : List PeerListEntry) (peer : PeerModel)
    (i : Identity)
    (hp : findPeer st senderPid = some peer)
    (huniq : ∀ q ∈ st.peers, q.pid = senderPid → q = peer)
    (hconn : (peer.stateType == PeerStateType.connected) = true)
    (hworker : cfg.localIsWorker = false)
    (hid : peer.identity = some i)
    (hm : mget st.identifiedPeers i = some senderPid)
    (hself : mhas peer.knownPeers i = false)
    (hstale : ∀ e ∈ peer.knownPeers,
      entriesHas (buildNewPeerSet cfg connectedPeers) e.1 = true)
    (hnew : ∀ e ∈ buildNewPeerSet cfg connectedPeers,
      (e.identity ≠ i → mhas peer.knownPeers e.identity = true) ∧
      (e.identity = i →
        peer.address = e.address ∧ peer.port = e.port ∧
        peer.name = jsStrOrNone e.name)) :
    handlePeerListMessage cfg st senderPid connectedPeers =
      (st,
       if entriesHas (buildNewPeerSet cfg connectedPeers) i then
         [Effect.emitKnownPeersChanged senderPid]
       else []) := by
  simp only [handlePeerListMessage]
  rw [hp]
  simp only []
  rw [if_neg (by simp [hconn])]
  rw [if_neg (by simp [hworker])]
  rw [hid]
  simp only []
  unfold removeStalePeerEdges
  rw [removeStale_foldl_noop (buildNewPeerSet cfg connectedPeers) senderPid i
    peer.knownPeers st false hstale]
  simp only []
  unfold addNewPeerEdges
  rw [addNew_foldl_fixed st senderPid peer i hp huniq hid hm hself
    (buildNewPeerSet cfg connectedPeers) false [] hnew]
  simp only [entriesHas, Bool.false_or]
  rfl

/-- C7 witness: the fixture `stB` already incorporates the single-entry list
naming the sender itself, so the handler returns the state unchanged with a
repeated `onKnownPeersChanged`. -/
theorem C7_peerlist_fixed_point_witness :
    handlePeerListMessage cfgZ stB 1 [{ identity := idB }] =
      (stB,
       if entriesHas (buildNewPeerSet cfgZ [{ identity := idB }]) idB then
         [Effect.emitKnownPeersChanged 1]
       else []) :=
  C7_peerlist_fixed_point cfgZ stB 1 [{ identity := idB }] peerB idB
    (by decide) (by decide) (by decide) (by decide) (by decide) (by decide)
    (by decide) (by decide) (by decide)

/-- C7 counterexample: handling the same `PeerList` twice from the same
`CONNECTED` peer leaves the state exactly as after the first application,
yet the second application emits `onKnownPeersChanged` again — the list
names the sender itself and that self edge is refused, so it is counted as
an addition every time. -/
theorem C7_peerlist_idempotent_cex :
    (handlePeerListMessage cfgZ
        (handlePeerListMessage cfgZ stB 1 [{ identity := idB }]).1 1
        [{ identity := idB }]).1 =
      (handlePeerListMessage cfgZ stB 1 [{ identity := idB }]).1 ∧
    (handlePeerListMessage cfgZ
        (handlePeerListMessage cfgZ stB 1 [{ identity := idB }]).1 1
        [{ identity := idB }]).2 =
      [Effect.emitKnownPeersChanged 1] := by
  decide

end IronfishPM
